import Mathlib

set_option maxRecDepth 40000

/-!
Verification of the Quran Obsidian plugin against its design document.

The TypeScript sources are shallowly embedded below:

* `src/utils/quranApi.ts` — the typed records (`Chapter`, `Verse`, `Word`,
  `Juz`, ...) returned by the remote API.
* `src/utils/helpers.ts` — `padNumber`, `stripHtml`.
* `src/renderers/MushafRenderer.ts` — the page-layout assembler
  (`groupWordsByLine`, `buildSurahStartLines`, `renderMushafPage`,
  `fetchAndRenderPage`) and the session chapter cache.
* `src/generators/VaultGenerator.ts` — the vault/document generator
  (`buildJuzPageMap`, `generateSurahNotes`, `generatePageNotes`,
  `generateIndex`, `generateFullVault`).
* `src/modals/CreateCollectionModal.ts` — the collection builder
  (`createCollection`).

JavaScript `Map` objects are embedded as association lists with the exact
`Map.set` semantics (update in place, otherwise append, keys unique);
JavaScript `Set` objects as duplicate-free lists in insertion order;
`async` functions returning or throwing become functions into `Except`
with the fetch results passed in as parameters; the host vault becomes an
explicit `Vault` state record.  JavaScript numbers in the embedded code
paths are non-negative integers and are modelled as `Nat`;
`Math.round(num/den)` on non-negative rationals is `floor(num/den + 1/2)`,
embedded as `jsRound`.
-/

/-! ## Data model (src/utils/quranApi.ts) -/

structure TranslatedName where
  language_name : String
  name : String
deriving DecidableEq, Repr

structure Chapter where
  id : Nat
  revelation_place : String
  revelation_order : Nat
  bismillah_pre : Bool
  name_simple : String
  name_complex : String
  name_arabic : String
  verses_count : Nat
  pages : List Nat
  translated_name : TranslatedName
deriving DecidableEq, Repr

structure QTranslation where
  id : Nat
  resource_id : Nat
  text : String
deriving DecidableEq, Repr

structure Verse where
  id : Nat
  verse_number : Nat
  verse_key : String
  chapter_id : Nat
  text_uthmani : String
  page_number : Nat
  juz_number : Nat
  hizb_number : Nat
  translations : Option (List QTranslation)
deriving DecidableEq, Repr

structure Juz where
  id : Nat
  juz_number : Nat
  verse_mapping : List (String × String)
  first_verse_id : Nat
  last_verse_id : Nat
  verses_count : Nat
deriving DecidableEq, Repr

structure Word where
  id : Nat
  position : Nat
  text_uthmani : String
  char_type_name : String
  line_number : Nat
  page_number : Nat
deriving DecidableEq, Repr

structure VerseWithWords extends Verse where
  words : List Word
deriving DecidableEq, Repr

/-! ## JavaScript `Map` as an association list

`Map.set k v` updates the existing entry for `k` in place (preserving
insertion order) or appends a fresh entry; `Map.get k` returns the value
for `k` or `undefined`; `Map.keys()` iterates keys in insertion order. -/

def jsMapSet {α β : Type} [DecidableEq α] (m : List (α × β)) (k : α) (v : β) :
    List (α × β) :=
  match m with
  | [] => [(k, v)]
  | e :: rest => if e.1 = k then (k, v) :: rest else e :: jsMapSet rest k v

def jsMapGet {α β : Type} [DecidableEq α] (m : List (α × β)) (k : α) : Option β :=
  match m with
  | [] => none
  | e :: rest => if e.1 = k then some e.2 else jsMapGet rest k

def jsMapKeys {α β : Type} (m : List (α × β)) : List α :=
  m.map Prod.fst

def jsMapValues {α β : Type} (m : List (α × β)) : List β :=
  m.map Prod.snd

theorem jsMapGet_set_self {α β : Type} [DecidableEq α]
    (m : List (α × β)) (k : α) (v : β) :
    jsMapGet (jsMapSet m k v) k = some v := by
  induction m with
  | nil => simp [jsMapSet, jsMapGet]
  | cons e rest ih =>
    by_cases h : e.1 = k
    · simp [jsMapSet, jsMapGet, h]
    · simp [jsMapSet, jsMapGet, h, ih]

theorem jsMapGet_set_ne {α β : Type} [DecidableEq α]
    (m : List (α × β)) (k k' : α) (v : β) (h : k' ≠ k) :
    jsMapGet (jsMapSet m k v) k' = jsMapGet m k' := by
  induction m with
  | nil => simp [jsMapSet, jsMapGet, Ne.symm h]
  | cons e rest ih =>
    by_cases he : e.1 = k
    · simp [jsMapSet, jsMapGet, he, Ne.symm h]
    · simp [jsMapSet, jsMapGet, he, ih]

theorem jsMapKeys_set_of_mem {α β : Type} [DecidableEq α]
    (m : List (α × β)) (k : α) (v : β) (h : k ∈ jsMapKeys m) :
    jsMapKeys (jsMapSet m k v) = jsMapKeys m := by
  induction m with
  | nil => simp [jsMapKeys] at h
  | cons e rest ih =>
    by_cases he : e.1 = k
    · simp [jsMapSet, jsMapKeys, he]
    · have hx : jsMapKeys (e :: rest) = e.1 :: jsMapKeys rest := rfl
      rw [hx] at h
      have h' : k ∈ jsMapKeys rest := by
        rcases List.mem_cons.mp h with h1 | h1
        · exact absurd h1.symm he
        · exact h1
      have hr := ih h'
      simp [jsMapSet, jsMapKeys, he] at hr ⊢
      exact hr

theorem jsMapKeys_set_of_not_mem {α β : Type} [DecidableEq α]
    (m : List (α × β)) (k : α) (v : β) (h : k ∉ jsMapKeys m) :
    jsMapKeys (jsMapSet m k v) = jsMapKeys m ++ [k] := by
  induction m with
  | nil => simp [jsMapSet, jsMapKeys]
  | cons e rest ih =>
    simp [jsMapKeys] at h
    push_neg at h
    simp [jsMapSet, jsMapKeys, Ne.symm h.1] at ih ⊢
    exact ih h.2

/-! ## `stripHtml` (src/utils/helpers.ts)

```ts
export function stripHtml(html: string): string {
  const div = document.createElement('div');
  div.textContent = html;
  return div.textContent ?? '';
}
```

Per the DOM specification, *assigning* `Element.textContent` replaces the
element's children with a single literal text node — the string is **not**
parsed as HTML — and reading `textContent` back returns exactly that
string (never `null` for an element).  The embedding models the detached
`div` accordingly. -/

structure DomDiv where
  text : String
deriving DecidableEq, Repr

def documentCreateElementDiv : DomDiv := { text := "" }

/-- Assigning `textContent` stores the string as literal text (no HTML parsing). -/
def domSetTextContent (_d : DomDiv) (s : String) : DomDiv := { text := s }

/-- Reading `Element.textContent`; for an element this is never `null`. -/
def domGetTextContent (d : DomDiv) : Option String := some d.text

def stripHtml (html : String) : String :=
  let div := documentCreateElementDiv
  let div := domSetTextContent div html
  (domGetTextContent div).getD ""

/-- What the helper's own doc comment ("Sanitize HTML string to plain text,
stripping all tags") and the design document describe: drop every `<...>`
tag span and keep the text content. -/
def stripTagsChars : Bool → List Char → List Char
  | _, [] => []
  | _, '<' :: rest => stripTagsChars true rest
  | true, '>' :: rest => stripTagsChars false rest
  | true, _ :: rest => stripTagsChars true rest
  | false, c :: rest => c :: stripTagsChars false rest

def stripHtmlSpec (s : String) : String :=
  String.mk (stripTagsChars false s.data)

/-- Claim C1: on a translation string with (nested) markup tags the
markup-stripping helper is required to return only the concatenated text
content with no tag markers left.  The code's `stripHtml` instead returns
its input unchanged — assigning `textContent` does not parse HTML — so tag
markers survive, contradicting the helper's own doc comment; the intended
stripping (`stripHtmlSpec`) would return `"hello world"`. -/
theorem stripHtml_returns_input_with_tags :
    stripHtml "<b>hello <i>world</i></b>" = "<b>hello <i>world</i></b>" ∧
    '<' ∈ (stripHtml "<b>hello <i>world</i></b>").data ∧
    stripHtmlSpec "<b>hello <i>world</i></b>" = "hello world" := by
  refine ⟨rfl, by decide, by decide⟩

/-! ## Page → division mapping (src/generators/VaultGenerator.ts) -/

/-- Model of `Math.round(num / den)` for non-negative operands:
`⌊num/den + 1/2⌋`. -/
def jsRound (num den : Nat) : Nat :=
  (2 * num + den) / (2 * den)

/-- Model of `Math.ceil(num / den)` for non-negative operands. -/
def jsCeilDiv (num den : Nat) : Nat :=
  (num + den - 1) / den

/-- The interval test of `buildJuzPageMap`:
`page >= round(((j-1)/30)*604)+1 && page <= round((j/30)*604)`. -/
def juzMatchesPage (page juzNumber : Nat) : Bool :=
  decide (jsRound ((juzNumber - 1) * 604) 30 + 1 ≤ page) &&
    decide (page ≤ jsRound (juzNumber * 604) 30)

/-- Loop body of `buildJuzPageMap`: the first juz record whose approximate
page interval contains `page` is entered into the map (`break` after the
first match). -/
def juzPageStep (juzs : List Juz) (pageToJuz : List (Nat × Nat)) (page : Nat) :
    List (Nat × Nat) :=
  match juzs.find? (fun juz => juzMatchesPage page juz.juz_number) with
  | some juz => jsMapSet pageToJuz page juz.juz_number
  | none => pageToJuz

def buildJuzPageMap (juzs : List Juz) : List (Nat × Nat) :=
  (List.range' 1 604).foldl (juzPageStep juzs) []

/-- Line 148 of the generator: `juzPageMap.get(page) ?? Math.ceil(page / 20)`. -/
def pageJuzNumber (juzPageMap : List (Nat × Nat)) (page : Nat) : Nat :=
  (jsMapGet juzPageMap page).getD (jsCeilDiv page 20)

/-- Thirty juz records with `juz_number` 1..30 (the remaining fields are
not read by `buildJuzPageMap`). -/
def standardJuzs : List Juz :=
  (List.range 30).map (fun i =>
    { id := i + 1, juz_number := i + 1, verse_mapping := [],
      first_verse_id := 0, last_verse_id := 0, verses_count := 0 })

theorem find_juzMatches_congr (a b : List Juz) (page : Nat)
    (h : a.map Juz.juz_number = b.map Juz.juz_number) :
    Option.map Juz.juz_number
        (a.find? (fun juz => juzMatchesPage page juz.juz_number)) =
      Option.map Juz.juz_number
        (b.find? (fun juz => juzMatchesPage page juz.juz_number)) := by
  induction a generalizing b with
  | nil =>
    cases b with
    | nil => rfl
    | cons y ys => simp at h
  | cons x xs ih =>
    cases b with
    | nil => simp at h
    | cons y ys =>
      simp only [List.map_cons, List.cons.injEq] at h
      obtain ⟨h1, h2⟩ := h
      simp only [List.find?, h1]
      by_cases hm : juzMatchesPage page y.juz_number
      · simp [hm, h1]
      · simp only [Bool.not_eq_true] at hm
        simp [hm, ih ys h2]

theorem jsMapGet_foldl_juzPageStep_not_mem (juzs : List Juz) (ps : List Nat)
    (p : Nat) :
    ∀ m : List (Nat × Nat), p ∉ ps →
      jsMapGet (ps.foldl (juzPageStep juzs) m) p = jsMapGet m p := by
  induction ps with
  | nil => intro m _; rfl
  | cons q ps ih =>
    intro m hp
    rw [List.foldl_cons]
    have hp' : p ∉ ps := fun hmem => hp (List.mem_cons_of_mem _ hmem)
    rw [ih _ hp']
    have hq : p ≠ q := fun e => hp (by simp [e])
    unfold juzPageStep
    cases hf : juzs.find? (fun juz => juzMatchesPage q juz.juz_number) with
    | none => rfl
    | some juz => exact jsMapGet_set_ne m q p juz.juz_number hq

theorem jsMapGet_foldl_juzPageStep_mem (juzs : List Juz) (ps : List Nat)
    (p : Nat) :
    ∀ m : List (Nat × Nat), ps.Nodup → p ∈ ps →
      jsMapGet (ps.foldl (juzPageStep juzs) m) p =
        match juzs.find? (fun juz => juzMatchesPage p juz.juz_number) with
        | some juz => some juz.juz_number
        | none => jsMapGet m p := by
  induction ps with
  | nil => intro m _ hp; simp at hp
  | cons q ps ih =>
    intro m hnd hp
    rw [List.foldl_cons]
    by_cases hpq : p = q
    · subst hpq
      have hp' : p ∉ ps := (List.nodup_cons.mp hnd).1
      rw [jsMapGet_foldl_juzPageStep_not_mem juzs ps p _ hp']
      unfold juzPageStep
      cases hf : juzs.find? (fun juz => juzMatchesPage p juz.juz_number) with
      | none => simp [hf]
      | some juz => simp [hf, jsMapGet_set_self]
    · have hp' : p ∈ ps := by
        rcases List.mem_cons.mp hp with h | h
        · exact absurd h hpq
        · exact h
      have hnd' : ps.Nodup := (List.nodup_cons.mp hnd).2
      rw [ih _ hnd' hp']
      cases hf : juzs.find? (fun juz => juzMatchesPage p juz.juz_number) with
      | some juz => simp [hf]
      | none =>
        simp only [hf]
        unfold juzPageStep
        cases hg : juzs.find? (fun juz => juzMatchesPage q juz.juz_number) with
        | none => rfl
        | some juz => exact jsMapGet_set_ne m q p juz.juz_number hpq

theorem jsMapGet_buildJuzPageMap (juzs : List Juz) (p : Nat)
    (h1 : 1 ≤ p) (h2 : p ≤ 604) :
    jsMapGet (buildJuzPageMap juzs) p =
      Option.map Juz.juz_number
        (juzs.find? (fun juz => juzMatchesPage p juz.juz_number)) := by
  unfold buildJuzPageMap
  have hmem : p ∈ List.range' 1 604 := by
    rw [List.mem_range'_1]
    omega
  rw [jsMapGet_foldl_juzPageStep_mem juzs _ p [] (List.nodup_range' 1 604) hmem]
  cases hf : juzs.find? (fun juz => juzMatchesPage p juz.juz_number) with
  | none => simp [jsMapGet]
  | some juz => simp

/-- The value `pageJuzNumber` takes once the map is built from
`standardJuzs` (used to transfer decidable facts). -/
def juzForPage (p : Nat) : Nat :=
  (Option.map Juz.juz_number
      (standardJuzs.find? (fun juz => juzMatchesPage p juz.juz_number))).getD
    (jsCeilDiv p 20)

theorem juzForPage_bounds : ∀ p < 605, 1 ≤ p →
    1 ≤ juzForPage p ∧ juzForPage p ≤ 30 := by decide

theorem juzForPage_adjacent : ∀ p < 604, 1 ≤ p →
    juzForPage p ≤ juzForPage (p + 1) := by decide

theorem juzForPage_cover : ∀ j ∈ Finset.Icc (1 : Nat) 30,
    ∃ p ∈ Finset.Icc (1 : Nat) 604, juzForPage p = j := by decide

theorem mono_of_adjacent (f : Nat → Nat)
    (hadj : ∀ p, 1 ≤ p → p < 604 → f p ≤ f (p + 1)) :
    ∀ p q, 1 ≤ p → p ≤ q → q ≤ 604 → f p ≤ f q := by
  intro p q hp hpq hq
  induction q with
  | zero => omega
  | succ n ih =>
    rcases Nat.eq_or_lt_of_le hpq with he | hl
    · rw [he]
    · have hpn : p ≤ n := Nat.lt_succ_iff.mp hl
      have h1 : f p ≤ f n := ih hpn (by omega)
      have h2 : f n ≤ f (n + 1) := hadj n (by omega) (by omega)
      exact le_trans h1 h2

theorem pageJuzNumber_eq_juzForPage (juzs : List Juz)
    (h : juzs.map Juz.juz_number = (List.range 30).map (· + 1))
    (p : Nat) (h1 : 1 ≤ p) (h2 : p ≤ 604) :
    pageJuzNumber (buildJuzPageMap juzs) p = juzForPage p := by
  have hmap : juzs.map Juz.juz_number = standardJuzs.map Juz.juz_number := by
    rw [h]
    decide
  unfold pageJuzNumber juzForPage
  rw [jsMapGet_buildJuzPageMap juzs p h1 h2,
    find_juzMatches_congr juzs standardJuzs p hmap]

/-- Claim C2: with the 30 juz records carrying `juz_number` 1..30, the
page-to-division mapping used by the generator (`buildJuzPageMap` read
through its `?? Math.ceil(page/20)` fallback) sends every page 1..604 to a
division in 1..30, is non-decreasing in the page number, and hits every
division 1..30 at least once. -/
theorem buildJuzPageMap_bounds_mono_cover (juzs : List Juz)
    (h : juzs.map Juz.juz_number = (List.range 30).map (· + 1)) :
    (∀ p, 1 ≤ p → p ≤ 604 →
      1 ≤ pageJuzNumber (buildJuzPageMap juzs) p ∧
        pageJuzNumber (buildJuzPageMap juzs) p ≤ 30) ∧
    (∀ p q, 1 ≤ p → p ≤ q → q ≤ 604 →
      pageJuzNumber (buildJuzPageMap juzs) p ≤
        pageJuzNumber (buildJuzPageMap juzs) q) ∧
    (∀ j, 1 ≤ j → j ≤ 30 →
      ∃ p, 1 ≤ p ∧ p ≤ 604 ∧ pageJuzNumber (buildJuzPageMap juzs) p = j) := by
  refine ⟨?_, ?_, ?_⟩
  · intro p h1 h2
    rw [pageJuzNumber_eq_juzForPage juzs h p h1 h2]
    exact juzForPage_bounds p (by omega) h1
  · intro p q hp hpq hq
    rw [pageJuzNumber_eq_juzForPage juzs h p hp (le_trans hpq hq),
      pageJuzNumber_eq_juzForPage juzs h q (le_trans hp hpq) hq]
    exact mono_of_adjacent juzForPage
      (fun r hr1 hr2 => juzForPage_adjacent r hr2 hr1) p q hp hpq hq
  · intro j hj1 hj2
    obtain ⟨p, hp, hgp⟩ := juzForPage_cover j (Finset.mem_Icc.mpr ⟨hj1, hj2⟩)
    obtain ⟨hp1, hp2⟩ := Finset.mem_Icc.mp hp
    exact ⟨p, hp1, hp2, by rw [pageJuzNumber_eq_juzForPage juzs h p hp1 hp2]; exact hgp⟩

/-- Witness for C2 at the concrete thirty juz records. -/
theorem buildJuzPageMap_bounds_mono_cover_witness :
    1 ≤ pageJuzNumber (buildJuzPageMap standardJuzs) 300 ∧
    pageJuzNumber (buildJuzPageMap standardJuzs) 300 ≤ 30 :=
  (buildJuzPageMap_bounds_mono_cover standardJuzs (by decide)).1 300
    (by decide) (by decide)

/-! ## Line grouping and surah-start markers (src/renderers/MushafRenderer.ts) -/

/-- Inner loop body of `groupWordsByLine`: append the word to the bucket of
its `line_number` (`existing.push(word); lineMap.set(...)`). -/
def groupWordsStep (lineMap : List (Nat × List Word)) (word : Word) :
    List (Nat × List Word) :=
  let existing := (jsMapGet lineMap word.line_number).getD []
  jsMapSet lineMap word.line_number (existing ++ [word])

def groupWordsByLine (verses : List VerseWithWords) : List (Nat × List Word) :=
  verses.foldl (fun lineMap verse => verse.words.foldl groupWordsStep lineMap) []

/-- Loop body of `buildSurahStartLines`: for a verse with
`verse_number === 1 && words.length > 0`, record
`firstWord.line_number → chapter_id`. -/
def surahStartStep (map : List (Nat × Nat)) (verse : VerseWithWords) :
    List (Nat × Nat) :=
  if verse.verse_number = 1 then
    match verse.words.head? with
    | some firstWord => jsMapSet map firstWord.line_number verse.chapter_id
    | none => map
  else map

def buildSurahStartLines (verses : List VerseWithWords) : List (Nat × Nat) :=
  verses.foldl surahStartStep []

/-- A verse writes the marker for line `l`: it is a first verse with at
least one word whose first word sits on line `l`. -/
def startsAtLine (l : Nat) (verse : VerseWithWords) : Bool :=
  decide (verse.verse_number = 1) &&
    (match verse.words.head? with
     | some w => decide (w.line_number = l)
     | none => false)

/-- The last verse in list order that writes the marker for line `l`
(`Map.set` lets the last writer win). -/
def lastStart (l : Nat) : List VerseWithWords → Option VerseWithWords
  | [] => none
  | v :: vs =>
    match lastStart l vs with
    | some v' => some v'
    | none => if startsAtLine l v then some v else none

theorem jsMapGet_buildSurahStartLines_aux (l : Nat)
    (verses : List VerseWithWords) :
    ∀ m : List (Nat × Nat),
      jsMapGet (verses.foldl surahStartStep m) l =
        match lastStart l verses with
        | some v => some v.chapter_id
        | none => jsMapGet m l := by
  induction verses with
  | nil => intro m; rfl
  | cons v vs ih =>
    intro m
    rw [List.foldl_cons, ih (surahStartStep m v)]
    cases hls : lastStart l vs with
    | some v' => simp [lastStart, hls]
    | none =>
      simp only [lastStart, hls]
      by_cases hs : startsAtLine l v
      · simp only [hs, if_true]
        simp only [startsAtLine, Bool.and_eq_true, decide_eq_true_eq] at hs
        obtain ⟨h1, h2⟩ := hs
        cases hw : v.words.head? with
        | none => rw [hw] at h2; simp at h2
        | some w =>
          rw [hw] at h2
          simp only [decide_eq_true_eq] at h2
          unfold surahStartStep
          rw [if_pos h1, hw]
          show jsMapGet (jsMapSet m w.line_number v.chapter_id) l = some v.chapter_id
          rw [h2]
          exact jsMapGet_set_self m l v.chapter_id
      · rw [Bool.not_eq_true] at hs
        simp only [hs, Bool.false_eq_true, if_false]
        unfold surahStartStep
        by_cases h1 : v.verse_number = 1
        · rw [if_pos h1]
          cases hw : v.words.head? with
          | none => rfl
          | some w =>
            have hwl : l ≠ w.line_number := by
              intro e
              have ht : startsAtLine l v = true := by
                unfold startsAtLine
                rw [hw]
                simp [h1, ← e]
              rw [ht] at hs
              simp at hs
            exact jsMapGet_set_ne m w.line_number l v.chapter_id hwl
        · rw [if_neg h1]

theorem lastStart_mem_and_starts (l : Nat) (verses : List VerseWithWords)
    (v' : VerseWithWords) (h : lastStart l verses = some v') :
    v' ∈ verses ∧ startsAtLine l v' = true := by
  induction verses with
  | nil => simp [lastStart] at h
  | cons x xs ih =>
    simp only [lastStart] at h
    cases hls : lastStart l xs with
    | some u =>
      rw [hls] at h
      obtain ⟨hm, hst⟩ := ih (h ▸ hls)
      exact ⟨List.mem_cons_of_mem _ hm, hst⟩
    | none =>
      rw [hls] at h
      by_cases hx : startsAtLine l x
      · rw [if_pos hx] at h
        cases h
        exact ⟨List.mem_cons_self _ _, hx⟩
      · rw [if_neg hx] at h
        cases h

theorem lastStart_isSome_of_mem (l : Nat) (verses : List VerseWithWords)
    (v : VerseWithWords) (hv : v ∈ verses) (hs : startsAtLine l v = true) :
    ∃ v', lastStart l verses = some v' := by
  induction verses with
  | nil => cases hv
  | cons x xs ih =>
    simp only [lastStart]
    cases hls : lastStart l xs with
    | some u => exact ⟨u, rfl⟩
    | none =>
      rcases List.mem_cons.mp hv with he | hm
      · subst he
        rw [hs]
        exact ⟨v, rfl⟩
      · obtain ⟨v', hv'⟩ := ih hm
        rw [hv'] at hls
        cases hls

/-- Concrete word/verse values used in counterexamples and witnesses. -/
def wordLine3A : Word :=
  { id := 1, position := 1, text_uthmani := "a", char_type_name := "word",
    line_number := 3, page_number := 1 }

def wordLine3B : Word :=
  { id := 2, position := 1, text_uthmani := "b", char_type_name := "word",
    line_number := 3, page_number := 1 }

/-- Chapter 2's first verse, its first word on line 3. -/
def verseStart2 : VerseWithWords :=
  { id := 1, verse_number := 1, verse_key := "2:1", chapter_id := 2,
    text_uthmani := "a", page_number := 1, juz_number := 1, hizb_number := 1,
    translations := none, words := [wordLine3A] }

/-- Chapter 3's first verse, its first word also on line 3. -/
def verseStart3 : VerseWithWords :=
  { id := 2, verse_number := 1, verse_key := "3:1", chapter_id := 3,
    text_uthmani := "b", page_number := 1, juz_number := 1, hizb_number := 1,
    translations := none, words := [wordLine3B] }

/-- Counterexample to claim C4 as stated: the page
`[verseStart2, verseStart3]` has exactly one item with
position-within-section 1 for section 2, and that item's first word is on
line 3, yet `buildSurahStartLines` records no marker at all for section 2:
the later section-3 first verse starting on the same line overwrites the
entry (`Map.set` keyed by line number). -/
theorem buildSurahStartLines_no_marker_counterexample :
    (([verseStart2, verseStart3].filter
        (fun v => decide (v.chapter_id = 2) && decide (v.verse_number = 1) &&
          decide (v.words ≠ []))).length = 1) ∧
    verseStart2.words.head? = some wordLine3A ∧
    buildSurahStartLines [verseStart2, verseStart3] = [(3, 3)] ∧
    jsMapGet (buildSurahStartLines [verseStart2, verseStart3])
        wordLine3A.line_number ≠ some 2 ∧
    (∀ e ∈ buildSurahStartLines [verseStart2, verseStart3], e.2 ≠ 2) := by
  decide

/-- Claim C4 (amended): if the page's items include exactly one item with
position-within-section 1 for section `c`, that item has at least one word
(first word `w`), and — as forced by the counterexample — no other first
verse on the page has its first word on the same line, then
`buildSurahStartLines` maps `w.line_number` to `c` and maps no other line
number to `c`. -/
theorem buildSurahStartLines_marks_first_word_line
    (verses : List VerseWithWords) (c : Nat) (v : VerseWithWords) (w : Word)
    (hv : v ∈ verses) (hc : v.chapter_id = c) (hn : v.verse_number = 1)
    (hw : v.words.head? = some w)
    (huniq : ∀ v' ∈ verses, v'.chapter_id = c → v'.verse_number = 1 → v' = v)
    (hnocol : ∀ v' ∈ verses, ∀ w', v'.verse_number = 1 →
      v'.words.head? = some w' → w'.line_number = w.line_number →
      v'.chapter_id = c) :
    jsMapGet (buildSurahStartLines verses) w.line_number = some c ∧
    ∀ l, jsMapGet (buildSurahStartLines verses) l = some c →
      l = w.line_number := by
  have hchar : ∀ l, jsMapGet (buildSurahStartLines verses) l =
      match lastStart l verses with
      | some v' => some v'.chapter_id
      | none => none := by
    intro l
    exact jsMapGet_buildSurahStartLines_aux l verses []
  have hstarts : startsAtLine w.line_number v = true := by
    unfold startsAtLine
    rw [hw]
    simp [hn]
  constructor
  · obtain ⟨v', hv'⟩ :=
      lastStart_isSome_of_mem w.line_number verses v hv hstarts
    obtain ⟨hmem, hst⟩ := lastStart_mem_and_starts _ _ _ hv'
    rw [hchar, hv']
    simp only [startsAtLine, Bool.and_eq_true, decide_eq_true_eq] at hst
    obtain ⟨h1, h2⟩ := hst
    cases hw' : v'.words.head? with
    | none => rw [hw'] at h2; simp at h2
    | some w' =>
      rw [hw'] at h2
      simp only [decide_eq_true_eq] at h2
      have hcc := hnocol v' hmem w' h1 hw' h2
      show some v'.chapter_id = some c
      rw [hcc]
  · intro l hl
    rw [hchar] at hl
    cases hls : lastStart l verses with
    | none => rw [hls] at hl; cases hl
    | some v' =>
      rw [hls] at hl
      obtain ⟨hmem, hst⟩ := lastStart_mem_and_starts _ _ _ hls
      have hcid : v'.chapter_id = c := by
        cases hl
        rfl
      simp only [startsAtLine, Bool.and_eq_true, decide_eq_true_eq] at hst
      obtain ⟨h1, h2⟩ := hst
      have hveq : v' = v := huniq v' hmem hcid h1
      subst hveq
      rw [hw] at h2
      simp only [decide_eq_true_eq] at h2
      exact h2.symm

/-- Witness for the amended C4 on a one-verse page. -/
theorem buildSurahStartLines_marks_first_word_line_witness :
    jsMapGet (buildSurahStartLines [verseStart2]) wordLine3A.line_number =
      some 2 :=
  (buildSurahStartLines_marks_first_word_line [verseStart2] 2 verseStart2
    wordLine3A (by decide) (by decide) (by decide) (by decide) (by decide)
    (by
      intro v' hv' w' h1 hw' hl
      rw [List.mem_singleton] at hv'
      rw [hv']
      rfl)).1

/-! ## Mushaf page rendering (src/renderers/MushafRenderer.ts, renderMushafPage)

The DOM children appended to the page element are modelled as an ordered
list of render items: surah headers, bismillah banners, word lines and the
page footer. -/

def bismillahText : String :=
  "بِسْمِ اللَّهِ الرَّحْمَٰنِ الرَّحِيمِ"

inductive RenderItem where
  | header (chapterId : Nat) (nameArabic : String)
  | bismillah (text : String)
  | line (lineNumber : Nat) (words : List Word)
  | footer (chapterNames : String) (page : Nat)
deriving DecidableEq, Repr

/-- The items appended for one visual line: an optional surah header (when
a marker exists for this line and the chapter metadata is present),
followed — unless the chapter is 9 or 1 — by the bismillah banner, then
the line of words (`lineMap.get(lineNum)!`). -/
def renderLineItems (lineMap : List (Nat × List Word))
    (chapters : List (Nat × Chapter)) (surahStartLines : List (Nat × Nat))
    (lineNum : Nat) : List RenderItem :=
  (match jsMapGet surahStartLines lineNum with
   | some startChapterId =>
     match jsMapGet chapters startChapterId with
     | some chapter =>
       RenderItem.header startChapterId chapter.name_arabic ::
         (if startChapterId ≠ 9 ∧ startChapterId ≠ 1 then
           [RenderItem.bismillah bismillahText]
         else [])
     | none => []
   | none => []) ++
    [RenderItem.line lineNum ((jsMapGet lineMap lineNum).getD [])]

def renderMushafPage (page : Nat) (lineMap : List (Nat × List Word))
    (chapters : List (Nat × Chapter)) (surahStartLines : List (Nat × Nat)) :
    List RenderItem :=
  let lineNumbers := List.insertionSort (· ≤ ·) (jsMapKeys lineMap)
  (lineNumbers.map (renderLineItems lineMap chapters surahStartLines)).flatten ++
    [RenderItem.footer
      (String.intercalate " · "
        ((jsMapValues chapters).map Chapter.name_simple)) page]

/-- Number of bismillah banners emitted immediately after a header of
chapter `c`. -/
def bannerCount (c : Nat) : List RenderItem → Nat
  | [] => 0
  | RenderItem.header c' _ :: rest =>
    (match rest with
     | RenderItem.bismillah _ :: _ => if c' = c then 1 else 0
     | _ => 0) + bannerCount c rest
  | _ :: rest => bannerCount c rest

/-- Number of header blocks emitted for chapter `c`. -/
def headerCount (c : Nat) (items : List RenderItem) : Nat :=
  items.countP (fun it =>
    match it with
    | RenderItem.header c' _ => decide (c' = c)
    | _ => false)

/-- Whether processing line `lineNum` emits a bismillah banner right after
a header of chapter `c`. -/
def lineEmitsBanner (chapters : List (Nat × Chapter))
    (surahStartLines : List (Nat × Nat)) (c : Nat) (lineNum : Nat) : Bool :=
  match jsMapGet surahStartLines lineNum with
  | some startChapterId =>
    match jsMapGet chapters startChapterId with
    | some _ => decide (startChapterId = c) && decide (c ≠ 9) && decide (c ≠ 1)
    | none => false
  | none => false

/-- Whether processing line `lineNum` emits a header of chapter `c`. -/
def lineEmitsHeader (chapters : List (Nat × Chapter))
    (surahStartLines : List (Nat × Nat)) (c : Nat) (lineNum : Nat) : Bool :=
  match jsMapGet surahStartLines lineNum with
  | some startChapterId =>
    match jsMapGet chapters startChapterId with
    | some _ => decide (startChapterId = c)
    | none => false
  | none => false

theorem bannerCount_bismillah_cons (c : Nat) (t : String)
    (rest : List RenderItem) :
    bannerCount c (RenderItem.bismillah t :: rest) = bannerCount c rest := rfl

theorem bannerCount_line_cons (c ln : Nat) (ws : List Word)
    (rest : List RenderItem) :
    bannerCount c (RenderItem.line ln ws :: rest) = bannerCount c rest := rfl

theorem bannerCount_header_bismillah (c c' : Nat) (n t : String)
    (rest : List RenderItem) :
    bannerCount c (RenderItem.header c' n :: RenderItem.bismillah t :: rest) =
      (if c' = c then 1 else 0) +
        bannerCount c (RenderItem.bismillah t :: rest) := rfl

theorem bannerCount_header_line (c c' : Nat) (n : String) (ln : Nat)
    (ws : List Word) (rest : List RenderItem) :
    bannerCount c (RenderItem.header c' n :: RenderItem.line ln ws :: rest) =
      bannerCount c (RenderItem.line ln ws :: rest) := by
  show 0 + bannerCount c (RenderItem.line ln ws :: rest) =
    bannerCount c (RenderItem.line ln ws :: rest)
  rw [Nat.zero_add]

theorem bannerCount_lineItems_append (lineMap : List (Nat × List Word))
    (chapters : List (Nat × Chapter)) (ssl : List (Nat × Nat))
    (c lineNum : Nat) (rest : List RenderItem) :
    bannerCount c (renderLineItems lineMap chapters ssl lineNum ++ rest) =
      (if lineEmitsBanner chapters ssl c lineNum then 1 else 0) +
        bannerCount c rest := by
  cases hm : jsMapGet ssl lineNum with
  | none =>
    have hseg : renderLineItems lineMap chapters ssl lineNum =
        [RenderItem.line lineNum ((jsMapGet lineMap lineNum).getD [])] := by
      unfold renderLineItems
      simp [hm]
    have hfire : lineEmitsBanner chapters ssl c lineNum = false := by
      unfold lineEmitsBanner
      simp [hm]
    rw [hseg, hfire]
    simp only [List.singleton_append]
    rw [bannerCount_line_cons]
    simp
  | some c' =>
    cases hc : jsMapGet chapters c' with
    | none =>
      have hseg : renderLineItems lineMap chapters ssl lineNum =
          [RenderItem.line lineNum ((jsMapGet lineMap lineNum).getD [])] := by
        unfold renderLineItems
        simp [hm, hc]
      have hfire : lineEmitsBanner chapters ssl c lineNum = false := by
        unfold lineEmitsBanner
        simp [hm, hc]
      rw [hseg, hfire]
      simp only [List.singleton_append]
      rw [bannerCount_line_cons]
      simp
    | some chapter =>
      have hfire : lineEmitsBanner chapters ssl c lineNum =
          (decide (c' = c) && decide (c ≠ 9) && decide (c ≠ 1)) := by
        unfold lineEmitsBanner
        simp [hm, hc]
      by_cases hb : c' ≠ 9 ∧ c' ≠ 1
      · have hseg : renderLineItems lineMap chapters ssl lineNum =
            RenderItem.header c' chapter.name_arabic ::
              RenderItem.bismillah bismillahText ::
              [RenderItem.line lineNum ((jsMapGet lineMap lineNum).getD [])] := by
          unfold renderLineItems
          simp [hm, hc, if_pos hb]
        rw [hseg, hfire]
        simp only [List.cons_append, List.singleton_append]
        rw [bannerCount_header_bismillah, bannerCount_bismillah_cons,
          bannerCount_line_cons]
        by_cases hcc : c' = c
        · subst hcc
          simp [hb.1, hb.2]
        · simp [hcc]
      · have hseg : renderLineItems lineMap chapters ssl lineNum =
            RenderItem.header c' chapter.name_arabic ::
              [RenderItem.line lineNum ((jsMapGet lineMap lineNum).getD [])] := by
          unfold renderLineItems
          simp [hm, hc, if_neg hb]
        rw [hseg, hfire]
        simp only [List.cons_append, List.singleton_append]
        rw [bannerCount_header_line, bannerCount_line_cons]
        by_cases hcc : c' = c
        · subst hcc
          rcases not_and_or.mp hb with h9 | h1
          · rw [not_not] at h9
            simp [h9]
          · rw [not_not] at h1
            simp [h1]
        · simp [hcc]

theorem headerCount_lineItems_append (lineMap : List (Nat × List Word))
    (chapters : List (Nat × Chapter)) (ssl : List (Nat × Nat))
    (c lineNum : Nat) (rest : List RenderItem) :
    headerCount c (renderLineItems lineMap chapters ssl lineNum ++ rest) =
      (if lineEmitsHeader chapters ssl c lineNum then 1 else 0) +
        headerCount c rest := by
  unfold headerCount
  rw [List.countP_append]
  congr 1
  cases hm : jsMapGet ssl lineNum with
  | none =>
    have hseg : renderLineItems lineMap chapters ssl lineNum =
        [RenderItem.line lineNum ((jsMapGet lineMap lineNum).getD [])] := by
      unfold renderLineItems
      simp [hm]
    have hfire : lineEmitsHeader chapters ssl c lineNum = false := by
      unfold lineEmitsHeader
      simp [hm]
    rw [hseg, hfire]
    simp [List.countP_cons]
  | some c' =>
    cases hc : jsMapGet chapters c' with
    | none =>
      have hseg : renderLineItems lineMap chapters ssl lineNum =
          [RenderItem.line lineNum ((jsMapGet lineMap lineNum).getD [])] := by
        unfold renderLineItems
        simp [hm, hc]
      have hfire : lineEmitsHeader chapters ssl c lineNum = false := by
        unfold lineEmitsHeader
        simp [hm, hc]
      rw [hseg, hfire]
      simp [List.countP_cons]
    | some chapter =>
      have hfire : lineEmitsHeader chapters ssl c lineNum = decide (c' = c) := by
        unfold lineEmitsHeader
        simp [hm, hc]
      rw [hfire]
      by_cases hb : c' ≠ 9 ∧ c' ≠ 1
      · have hseg : renderLineItems lineMap chapters ssl lineNum =
            RenderItem.header c' chapter.name_arabic ::
              RenderItem.bismillah bismillahText ::
              [RenderItem.line lineNum ((jsMapGet lineMap lineNum).getD [])] := by
          unfold renderLineItems
          simp [hm, hc, if_pos hb]
        rw [hseg]
        by_cases hcc : c' = c
        · simp [List.countP_cons, hcc]
        · simp [List.countP_cons, hcc]
      · have hseg : renderLineItems lineMap chapters ssl lineNum =
            RenderItem.header c' chapter.name_arabic ::
              [RenderItem.line lineNum ((jsMapGet lineMap lineNum).getD [])] := by
          unfold renderLineItems
          simp [hm, hc, if_neg hb]
        rw [hseg]
        by_cases hcc : c' = c
        · simp [List.countP_cons, hcc]
        · simp [List.countP_cons, hcc]

theorem bannerCount_renderMushafPage (page : Nat)
    (lineMap : List (Nat × List Word)) (chapters : List (Nat × Chapter))
    (ssl : List (Nat × Nat)) (c : Nat) :
    bannerCount c (renderMushafPage page lineMap chapters ssl) =
      (List.insertionSort (· ≤ ·) (jsMapKeys lineMap)).countP
        (lineEmitsBanner chapters ssl c) := by
  unfold renderMushafPage
  generalize List.insertionSort (· ≤ ·) (jsMapKeys lineMap) = lns
  induction lns with
  | nil => rfl
  | cons ln lns ih =>
    simp only [List.map_cons, List.flatten_cons, List.append_assoc]
    rw [bannerCount_lineItems_append, ih, List.countP_cons]
    rw [Nat.add_comm]

theorem headerCount_renderMushafPage (page : Nat)
    (lineMap : List (Nat × List Word)) (chapters : List (Nat × Chapter))
    (ssl : List (Nat × Nat)) (c : Nat) :
    headerCount c (renderMushafPage page lineMap chapters ssl) =
      (List.insertionSort (· ≤ ·) (jsMapKeys lineMap)).countP
        (lineEmitsHeader chapters ssl c) := by
  unfold renderMushafPage
  generalize List.insertionSort (· ≤ ·) (jsMapKeys lineMap) = lns
  induction lns with
  | nil => rfl
  | cons ln lns ih =>
    simp only [List.map_cons, List.flatten_cons, List.append_assoc]
    rw [headerCount_lineItems_append, ih, List.countP_cons]
    rw [Nat.add_comm]

theorem countP_eq_one_of_unique {α : Type} (p : α → Bool) (l : List α) (a : α)
    (hnd : l.Nodup) (ha : a ∈ l) (hpa : p a = true)
    (huniq : ∀ b ∈ l, p b = true → b = a) :
    l.countP p = 1 := by
  induction l with
  | nil => cases ha
  | cons x xs ih =>
    rw [List.countP_cons]
    rcases List.mem_cons.mp ha with he | hm
    · subst he
      have hxs : xs.countP p = 0 := by
        rw [List.countP_eq_zero]
        intro b hb hpb
        have hba := huniq b (List.mem_cons_of_mem _ hb) hpb
        exact (List.nodup_cons.mp hnd).1 (hba ▸ hb)
      rw [hxs, hpa]
      simp
    · have hx : p x = false := by
        by_contra hpx
        rw [Bool.not_eq_false] at hpx
        have hxa := huniq x (List.mem_cons_self _ _) hpx
        exact (List.nodup_cons.mp hnd).1 (hxa ▸ hm)
      rw [ih (List.nodup_cons.mp hnd).2 hm
        (fun b hb hpb => huniq b (List.mem_cons_of_mem _ hb) hpb), hx]
      simp

/-- Chapter metadata used in counterexamples and witnesses. -/
def chapterTwo : Chapter :=
  { id := 2, revelation_place := "madinah", revelation_order := 87,
    bismillah_pre := true, name_simple := "Al-Baqarah",
    name_complex := "Al-Baqarah", name_arabic := "البقرة",
    verses_count := 286, pages := [2],
    translated_name := { language_name := "english", name := "The Cow" } }

/-- Counterexample to claim C5 as stated.  First scenario: a section-start
marker for section 2 exists (at line 3) and section 2's metadata is in the
chapters lookup, yet the render plan emits no banner (and no header),
because line 3 carries no words — the loop only visits lines present in
the line map.  Second scenario: markers for section 2 on two word lines
emit the banner twice, not once. -/
theorem renderMushafPage_banner_counterexample :
    (jsMapGet [((3 : Nat), (2 : Nat))] 3 = some 2 ∧
     jsMapGet [((2 : Nat), chapterTwo)] 2 = some chapterTwo ∧
     bannerCount 2
       (renderMushafPage 1 [(5, [wordLine3A])] [(2, chapterTwo)] [(3, 2)]) =
       0 ∧
     headerCount 2
       (renderMushafPage 1 [(5, [wordLine3A])] [(2, chapterTwo)] [(3, 2)]) =
       0) ∧
    bannerCount 2
      (renderMushafPage 1 [(1, [wordLine3A]), (4, [wordLine3B])]
        [(2, chapterTwo)] [(1, 2), (4, 2)]) = 2 := by
  decide

/-- Claim C5 (amended): in the render plan of `renderMushafPage`, (a) a
bismillah banner is never emitted after a header of section 1 or 9,
whatever the inputs; (b) for any other section `c` whose metadata is in
the chapters lookup and whose section-start marker sits on a line that
actually carries words — and, as forced by the counterexample, is the only
marker for `c` among the rendered lines — the header of `c` is emitted
exactly once and the banner exactly once, immediately after that
header. -/
theorem renderMushafPage_bismillah_policy :
    (∀ page lineMap chapters ssl,
      bannerCount 1 (renderMushafPage page lineMap chapters ssl) = 0 ∧
      bannerCount 9 (renderMushafPage page lineMap chapters ssl) = 0) ∧
    (∀ page lineMap chapters ssl c l ch,
      jsMapGet ssl l = some c →
      l ∈ jsMapKeys lineMap →
      (jsMapKeys lineMap).Nodup →
      jsMapGet chapters c = some ch →
      c ≠ 1 → c ≠ 9 →
      (∀ l' ∈ jsMapKeys lineMap, jsMapGet ssl l' = some c → l' = l) →
      bannerCount c (renderMushafPage page lineMap chapters ssl) = 1 ∧
      headerCount c (renderMushafPage page lineMap chapters ssl) = 1) := by
  constructor
  · intro page lineMap chapters ssl
    constructor
    · rw [bannerCount_renderMushafPage]
      rw [List.countP_eq_zero]
      intro ln _
      unfold lineEmitsBanner
      cases hx0 : jsMapGet ssl ln with
      | none => simp [hx0]
      | some c' =>
        cases hx1 : jsMapGet chapters c' with
        | none => simp [hx0, hx1]
        | some chapter => simp [hx0, hx1]
    · rw [bannerCount_renderMushafPage]
      rw [List.countP_eq_zero]
      intro ln _
      unfold lineEmitsBanner
      cases hx0 : jsMapGet ssl ln with
      | none => simp [hx0]
      | some c' =>
        cases hx1 : jsMapGet chapters c' with
        | none => simp [hx0, hx1]
        | some chapter => simp [hx0, hx1]
  · intro page lineMap chapters ssl c l ch hm hl hnd hch hc1 hc9 huniq
    have hperm : (List.insertionSort (· ≤ ·) (jsMapKeys lineMap)).Perm
        (jsMapKeys lineMap) := List.perm_insertionSort _ _
    have hmem : l ∈ List.insertionSort (· ≤ ·) (jsMapKeys lineMap) :=
      hperm.mem_iff.mpr hl
    have hnds : (List.insertionSort (· ≤ ·) (jsMapKeys lineMap)).Nodup :=
      hperm.nodup_iff.mpr hnd
    constructor
    · rw [bannerCount_renderMushafPage]
      apply countP_eq_one_of_unique _ _ l hnds hmem
      · unfold lineEmitsBanner
        simp [hm, hch, hc1, hc9]
      · intro b hb hfb
        unfold lineEmitsBanner at hfb
        cases hgb : jsMapGet ssl b with
        | none => simp [hgb] at hfb
        | some c'' =>
          simp only [hgb] at hfb
          cases hcb : jsMapGet chapters c'' with
          | none => simp [hcb] at hfb
          | some chb =>
            simp only [hcb, Bool.and_eq_true, decide_eq_true_eq] at hfb
            have hc'' : c'' = c := hfb.1.1
            subst hc''
            exact huniq b (hperm.mem_iff.mp hb) hgb
    · rw [headerCount_renderMushafPage]
      apply countP_eq_one_of_unique _ _ l hnds hmem
      · unfold lineEmitsHeader
        simp [hm, hch]
      · intro b hb hfb
        unfold lineEmitsHeader at hfb
        cases hgb : jsMapGet ssl b with
        | none => simp [hgb] at hfb
        | some c'' =>
          simp only [hgb] at hfb
          cases hcb : jsMapGet chapters c'' with
          | none => simp [hcb] at hfb
          | some chb =>
            simp only [hcb, decide_eq_true_eq] at hfb
            subst hfb
            exact huniq b (hperm.mem_iff.mp hb) hgb

/-- Witness for the amended C5: section 2 starts on the only word line. -/
theorem renderMushafPage_bismillah_policy_witness :
    bannerCount 2
      (renderMushafPage 1 [(3, [wordLine3A])] [(2, chapterTwo)] [(3, 2)]) =
      1 :=
  (renderMushafPage_bismillah_policy.2 1 [(3, [wordLine3A])]
    [(2, chapterTwo)] [(3, 2)] 2 3 chapterTwo (by decide) (by decide)
    (by decide) (by decide) (by decide) (by decide) (by decide)).1

/-! ## Session chapter cache (src/renderers/MushafRenderer.ts, lines 4–16)

The module-level `chaptersCache` variable is threaded explicitly; the
`getChapters` network call becomes the `fetchChapters` parameter.  The
third component of the result records whether a network fetch was
performed by the call. -/

def getCachedChapters (fetchChapters : String → Except String (List Chapter))
    (cache : Option (List Chapter)) (language : String) :
    Except String (List Chapter) × Option (List Chapter) × Bool :=
  match cache with
  | some cs => (.ok cs, some cs, false)
  | none =>
    match fetchChapters language with
    | .ok cs => (.ok cs, some cs, true)
    | .error e => (.error e, none, true)

def clearChaptersCache (_cache : Option (List Chapter)) :
    Option (List Chapter) :=
  none

/-- Claim C10: once `getCachedChapters` has filled the session cache from a
call with language `l1`, a later call with any language `l2` performs no
fetch and returns the list fetched for `l1`; only `clearChaptersCache`
makes a subsequent call fetch again. -/
theorem getCachedChapters_ignores_language
    (fetchChapters : String → Except String (List Chapter))
    (l1 l2 : String) (cs : List Chapter)
    (h : fetchChapters l1 = Except.ok cs) :
    getCachedChapters fetchChapters none l1 = (.ok cs, some cs, true) ∧
    getCachedChapters fetchChapters
        (getCachedChapters fetchChapters none l1).2.1 l2 =
      (.ok cs, some cs, false) ∧
    (getCachedChapters fetchChapters
        (clearChaptersCache
          (getCachedChapters fetchChapters none l1).2.1) l2).2.2 = true := by
  have h1 : getCachedChapters fetchChapters none l1 = (.ok cs, some cs, true) := by
    unfold getCachedChapters
    rw [h]
  refine ⟨h1, ?_, ?_⟩
  · rw [h1]
    rfl
  · rw [h1]
    unfold clearChaptersCache getCachedChapters
    cases fetchChapters l2 <;> rfl

/-- Witness for C10 with a constant fetch function. -/
theorem getCachedChapters_ignores_language_witness :
    getCachedChapters (fun _ => Except.ok [chapterTwo]) none "en" =
      (.ok [chapterTwo], some [chapterTwo], true) ∧
    getCachedChapters (fun _ => Except.ok [chapterTwo])
        (getCachedChapters (fun _ => Except.ok [chapterTwo]) none "en").2.1
        "ar" =
      (.ok [chapterTwo], some [chapterTwo], false) ∧
    (getCachedChapters (fun _ => Except.ok [chapterTwo])
        (clearChaptersCache
          (getCachedChapters (fun _ => Except.ok [chapterTwo]) none
            "en").2.1) "ar").2.2 = true :=
  getCachedChapters_ignores_language (fun _ => Except.ok [chapterTwo])
    "en" "ar" [chapterTwo] rfl

/-! ## Fetch-and-render (src/renderers/MushafRenderer.ts, fetchAndRenderPage) -/

/-- The helper `getChaptersForIds` filters the cached chapter list down to the ids on
the page. -/
def getChaptersForIds (all : List Chapter) (chapterIds : List Nat) :
    List (Nat × Chapter) :=
  all.foldl
    (fun m ch => if ch.id ∈ chapterIds then jsMapSet m ch.id ch else m) []

/-- Model of `[...new Set(xs)]`: duplicate-free list in insertion order (first
occurrence kept). -/
def jsSetToList : List Nat → List Nat
  | [] => []
  | x :: xs => x :: jsSetToList (xs.filter (fun y => decide (y ≠ x)))
  termination_by l => l.length
  decreasing_by
    simp only [List.length_cons]
    exact Nat.lt_succ_of_le (List.length_filter_le _ _)

/-- The content of the render target container. -/
inductive ContainerBlock where
  | loadingBlock (text : String)
  | pageBlock (items : List RenderItem)
  | errorBlock (text : String)
deriving DecidableEq, Repr

structure FetchRenderResult where
  container : List ContainerBlock
  cache : Option (List Chapter)
  rendered : Bool
deriving DecidableEq, Repr

/-- The function `fetchAndRenderPage`: clear the container, show a loading block, fetch
the page's verses, resolve chapters through the session cache, then either
render the page into the (re-emptied) container or re-empty it and insert
a single error block carrying the propagated message.  `rendered` records
whether `renderMushafPage` was invoked. -/
def fetchAndRenderPage (fetchVerses : Except String (List VerseWithWords))
    (fetchChapters : String → Except String (List Chapter))
    (cache : Option (List Chapter)) (page : Nat) (language : String) :
    FetchRenderResult :=
  match fetchVerses with
  | .error e =>
    { container := [ContainerBlock.errorBlock ("Error: " ++ e)],
      cache := cache, rendered := false }
  | .ok verses =>
    let lineMap := groupWordsByLine verses
    let chapterIds := jsSetToList (verses.map (fun v => v.chapter_id))
    match getCachedChapters fetchChapters cache language with
    | (.error e, cache', _) =>
      { container := [ContainerBlock.errorBlock ("Error: " ++ e)],
        cache := cache', rendered := false }
    | (.ok all, cache', _) =>
      let chapters := getChaptersForIds all chapterIds
      let surahStartLines := buildSurahStartLines verses
      { container := [ContainerBlock.pageBlock
          (renderMushafPage page lineMap chapters surahStartLines)],
        cache := cache', rendered := true }

/-- Claim C6: when the page fetch fails, the container ends up holding
exactly one error block with the propagated message and nothing else, and
the page-assembly renderer is never invoked. -/
theorem fetchAndRenderPage_fetch_error
    (fetchVerses : Except String (List VerseWithWords))
    (fetchChapters : String → Except String (List Chapter))
    (cache : Option (List Chapter)) (page : Nat) (language : String)
    (e : String) (h : fetchVerses = Except.error e) :
    fetchAndRenderPage fetchVerses fetchChapters cache page language =
      { container := [ContainerBlock.errorBlock ("Error: " ++ e)],
        cache := cache, rendered := false } := by
  subst h
  rfl

/-- Witness for C6 at a concrete failing fetch. -/
theorem fetchAndRenderPage_fetch_error_witness :
    fetchAndRenderPage (Except.error "network down")
        (fun _ => Except.ok [chapterTwo]) none 1 "en" =
      { container := [ContainerBlock.errorBlock "Error: network down"],
        cache := none, rendered := false } :=
  fetchAndRenderPage_fetch_error (Except.error "network down")
    (fun _ => Except.ok [chapterTwo]) none 1 "en" "network down" rfl

/-! ## Collection builder (src/modals/CreateCollectionModal.ts) -/

structure VerseRange where
  surah : Nat
  startVerse : Nat
  endVerse : Nat
  label : Option String
deriving DecidableEq, Repr

/-- The helper `padNumber` (src/utils/helpers.ts):
`String(n).padStart(width, '0')`. -/
def padNumber (n width : Nat) : String :=
  String.mk (List.replicate (width - (toString n).length) '0') ++ toString n

/-- First preset of `PRESETS`: "Ayatul Kursi". -/
def ayatulKursiRanges : List VerseRange :=
  [{ surah := 2, startVerse := 255, endVerse := 255, label := none }]

/-- The verse filter of `createCollection`: positions in
`[startVerse, maxVerse]` where `endVerse === 999` means `Infinity`
(open-ended). -/
def rangeFilter (range : VerseRange) (v : Verse) : Bool :=
  decide (range.startVerse ≤ v.verse_number) &&
    (decide (range.endVerse = 999) || decide (v.verse_number ≤ range.endVerse))

def rangeFilteredVerses (range : VerseRange) (allVerses : List Verse) :
    List Verse :=
  allVerses.filter (rangeFilter range)

/-- One item block of the body:
`### key`, the primary text as a quote, the optional stripped translation,
and a separator. -/
def verseBlock (verse : Verse) : String :=
  "### " ++ verse.verse_key ++ "\n\n" ++
    ("> " ++ verse.text_uthmani ++ "\n\n") ++
    (match verse.translations with
     | some (t :: _) => stripHtml t.text ++ "\n\n"
     | _ => "") ++
    "---\n\n"

/-- Model of `if (verse.page_number) allPages.add(verse.page_number)` — JS `Set.add`
keeps insertion order and ignores duplicates; `0` is falsy. -/
def addVersePage (allPages : List Nat) (verse : Verse) : List Nat :=
  if verse.page_number ≠ 0 then
    (if verse.page_number ∈ allPages then allPages
     else allPages ++ [verse.page_number])
  else allPages

structure CollectionAcc where
  allPages : List Nat
  body : String
deriving DecidableEq, Repr

def collectVerseStep (acc : CollectionAcc) (verse : Verse) : CollectionAcc :=
  { allPages := addVersePage acc.allPages verse,
    body := acc.body ++ verseBlock verse }

/-- The sub-heading and cross-link emitted before a range's verses. -/
def rangeHeader (range : VerseRange) (chapter : Chapter) : String :=
  "\n## " ++ chapter.name_simple ++ " (" ++
    range.label.getD
      (toString range.surah ++ ":" ++ toString range.startVerse ++ "-" ++
        toString range.endVerse) ++ ")\n" ++
    ("**Link:** [[" ++ padNumber range.surah 3 ++ " - " ++
      chapter.name_simple ++ "]]\n\n")

/-- Per-range processing of `createCollection`: fetch the chapter, emit
the range header, fetch the chapter's verses, filter them to the range and
append one block per verse. -/
def processRange (getChapter : Nat → Except String Chapter)
    (getVersesByChapter : Nat → Except String (List Verse))
    (acc : CollectionAcc) (range : VerseRange) :
    Except String CollectionAcc :=
  match getChapter range.surah with
  | .error e => .error e
  | .ok chapter =>
    match getVersesByChapter range.surah with
    | .error e => .error e
    | .ok allVerses =>
      .ok ((rangeFilteredVerses range allVerses).foldl collectVerseStep
        { acc with body := acc.body ++ rangeHeader range chapter })

def processRanges (getChapter : Nat → Except String Chapter)
    (getVersesByChapter : Nat → Except String (List Verse)) :
    List VerseRange → CollectionAcc → Except String CollectionAcc
  | [], acc => .ok acc
  | r :: rs, acc =>
    match processRange getChapter getVersesByChapter acc r with
    | .error e => .error e
    | .ok acc' => processRanges getChapter getVersesByChapter rs acc'

theorem foldl_collectVerseStep (l : List Verse) (acc : CollectionAcc) :
    l.foldl collectVerseStep acc =
      { allPages := l.foldl addVersePage acc.allPages,
        body := (l.map verseBlock).foldl (· ++ ·) acc.body } := by
  induction l generalizing acc with
  | nil => rfl
  | cons v vs ih =>
    simp only [List.foldl_cons, List.map_cons]
    rw [ih]
    rfl

theorem string_append_empty (s : String) : s ++ "" = s := by
  cases s with
  | mk data =>
    show String.mk (data ++ []) = String.mk data
    rw [List.append_nil]

def stringConcat (l : List String) : String :=
  l.foldl (· ++ ·) ""

theorem foldl_string_append (l : List String) (init : String) :
    l.foldl (· ++ ·) init = init ++ stringConcat l := by
  induction l generalizing init with
  | nil => exact (string_append_empty init).symm
  | cons x xs ih =>
    show xs.foldl (· ++ ·) (init ++ x) = init ++ stringConcat (x :: xs)
    rw [ih]
    have hx : stringConcat (x :: xs) = x ++ stringConcat xs := by
      show xs.foldl (· ++ ·) ("" ++ x) = x ++ stringConcat xs
      rw [ih]
      rfl
    rw [hx, String.append_assoc]

theorem processRange_ok (getChapter : Nat → Except String Chapter)
    (getVersesByChapter : Nat → Except String (List Verse))
    (range : VerseRange) (chapter : Chapter) (allVerses : List Verse)
    (pages : List Nat) (body : String)
    (hc : getChapter range.surah = .ok chapter)
    (hv : getVersesByChapter range.surah = .ok allVerses) :
    processRange getChapter getVersesByChapter
      { allPages := pages, body := body } range = .ok
      { allPages := (rangeFilteredVerses range allVerses).foldl addVersePage
          pages,
        body := body ++ rangeHeader range chapter ++
          stringConcat ((rangeFilteredVerses range allVerses).map
            verseBlock) } := by
  unfold processRange
  simp only [hc, hv]
  rw [foldl_collectVerseStep]
  simp only [foldl_string_append, String.append_assoc]

/-! ## Host vault store and collection creation -/

/-- The host document store: folders and text blobs keyed by path.  Per
the host API, `create` rejects when a file already exists at the path
(existing blobs are never updated or deleted). -/
structure Vault where
  folders : List String
  files : List (String × String)
deriving DecidableEq, Repr

def vaultHasAbstractFile (v : Vault) (path : String) : Bool :=
  decide (path ∈ v.folders) || decide (path ∈ jsMapKeys v.files)

def vaultCreateFolder (v : Vault) (path : String) : Vault :=
  { v with folders := v.folders ++ [path] }

def vaultCreate (v : Vault) (path content : String) : Except String Vault :=
  if path ∈ jsMapKeys v.files then .error "File already exists"
  else .ok { v with files := v.files ++ [(path, content)] }

/-- JSON escaping of `"` and `\` inside a string literal. -/
def jsonEscapeChar (c : Char) : List Char :=
  if c = '"' then ['\\', '"'] else if c = '\\' then ['\\', '\\'] else [c]

def jsonQuote (s : String) : String :=
  "\"" ++ String.mk ((s.data.map jsonEscapeChar).flatten) ++ "\""

/-- Model of `JSON.stringify` of one range object (keys in declaration order;
an absent label is omitted). -/
def jsonStringifyRange (r : VerseRange) : String :=
  "\x7b\"surah\":" ++ toString r.surah ++
    ",\"startVerse\":" ++ toString r.startVerse ++
    ",\"endVerse\":" ++ toString r.endVerse ++
    (match r.label with
     | some l => ",\"label\":" ++ jsonQuote l
     | none => "") ++ "\x7d"

def jsonStringifyRanges (rs : List VerseRange) : String :=
  "[" ++ String.intercalate "," (rs.map jsonStringifyRange) ++ "]"

/-- The full collection document: front matter, title, body, progress
checklist and notes area. -/
def collectionContent (name : String) (ranges : List VerseRange)
    (today : String) (body : String) (sortedPages : List Nat) : String :=
  "---\n" ++
    "type: collection\n" ++
    ("name: \"" ++ name ++ "\"\n") ++
    ("created: " ++ today ++ "\n") ++
    ("ranges: " ++ jsonStringifyRanges ranges ++ "\n") ++
    ("pages: [" ++ String.intercalate ", " (sortedPages.map toString) ++
      "]\n") ++
    "status: \"not_started\"\n" ++
    "tags: [quran, collection, custom]\n" ++
    "---\n" ++
    "\n" ++
    ("# " ++ name ++ "\n") ++
    "\n" ++
    (body ++ "\n") ++
    "## Progress\n" ++
    "\n" ++
    "- [ ] Started\n" ++
    "- [ ] Completed\n" ++
    "- [ ] Memorized\n" ++
    "\n" ++
    "## Notes\n" ++
    "\n"

def isSafeNameChar (c : Char) : Bool :=
  ('a' ≤ c && c ≤ 'z') || ('A' ≤ c && c ≤ 'Z') || ('0' ≤ c && c ≤ '9') ||
    c = ' ' || c = '_' || c = '-'

/-- Model of `collectionName.replace(/[^a-zA-Z0-9 _-]/g, "_")`. -/
def sanitizeName (s : String) : String :=
  String.mk (s.data.map (fun c => if isSafeNameChar c then c else '_'))

/-- The host's `normalizePath`; the identity on the already-normalized
relative paths built by this plugin. -/
def normalizePath (p : String) : String := p

inductive CollectionOutcome where
  | noticeOnly (msg : String)
  | created (path : String)
  | failed (msg : String)
deriving DecidableEq, Repr

/-- The method `createCollection`: validate the inputs, build the document body range
by range (each range needing a chapter fetch and a verse fetch), then
ensure the Collections folder and create the document; any thrown error is
caught and reported as a notice.  The wall-clock date is passed in as
`today`. -/
def createCollection (getChapter : Nat → Except String Chapter)
    (getVersesByChapter : Nat → Except String (List Verse))
    (collectionName : String) (ranges : List VerseRange) (today : String)
    (vault : Vault) : Vault × CollectionOutcome :=
  if collectionName = "" ∨ ranges = [] then
    (vault,
      .noticeOnly "Please provide a name and at least one verse range.")
  else
    match processRanges getChapter getVersesByChapter ranges
        { allPages := [], body := "" } with
    | .error e => (vault, .failed ("Error creating collection: " ++ e))
    | .ok acc =>
      match vaultCreate
          (if vaultHasAbstractFile vault (normalizePath "Quran/Collections")
           then vault
           else vaultCreateFolder vault (normalizePath "Quran/Collections"))
          (normalizePath
            ("Quran/Collections/" ++ sanitizeName collectionName ++ ".md"))
          (collectionContent collectionName ranges today acc.body
            (List.insertionSort (· ≤ ·) acc.allPages)) with
      | .error e =>
        ((if vaultHasAbstractFile vault (normalizePath "Quran/Collections")
          then vault
          else vaultCreateFolder vault (normalizePath "Quran/Collections")),
          .failed ("Error creating collection: " ++ e))
      | .ok vault2 =>
        (vault2, .created (normalizePath
          ("Quran/Collections/" ++ sanitizeName collectionName ++ ".md")))

def exceptIsError {ε α : Type} : Except ε α → Bool
  | .error _ => true
  | .ok _ => false

theorem processRanges_error_of_fetch_error
    (getChapter : Nat → Except String Chapter)
    (getVersesByChapter : Nat → Except String (List Verse))
    (ranges : List VerseRange) (r : VerseRange) (hr : r ∈ ranges)
    (hf : exceptIsError (getChapter r.surah) = true ∨
      exceptIsError (getVersesByChapter r.surah) = true) :
    ∀ acc, ∃ e,
      processRanges getChapter getVersesByChapter ranges acc =
        .error e := by
  induction ranges with
  | nil => cases hr
  | cons r0 rs ih =>
    intro acc
    rcases List.mem_cons.mp hr with he | hm
    · subst he
      unfold processRanges processRange
      cases hc : getChapter r.surah with
      | error e => exact ⟨e, rfl⟩
      | ok ch =>
        cases hv : getVersesByChapter r.surah with
        | error e => exact ⟨e, rfl⟩
        | ok vs =>
          rw [hc, hv] at hf
          simp [exceptIsError] at hf
    · unfold processRanges
      cases hp : processRange getChapter getVersesByChapter acc r0 with
      | error e => exact ⟨e, rfl⟩
      | ok acc' => exact ih hm acc'

/-- Claim C7: if any fetch performed while processing the ranges fails,
`createCollection` leaves the store untouched — no folder is ensured and
no document is created at the target path (the partially built body exists
only in memory) — and the error is reported. -/
theorem createCollection_fetch_failure_no_write
    (getChapter : Nat → Except String Chapter)
    (getVersesByChapter : Nat → Except String (List Verse))
    (collectionName : String) (ranges : List VerseRange) (today : String)
    (vault : Vault) (r : VerseRange)
    (hok : ¬(collectionName = "" ∨ ranges = []))
    (hr : r ∈ ranges)
    (hf : exceptIsError (getChapter r.surah) = true ∨
      exceptIsError (getVersesByChapter r.surah) = true) :
    ∃ msg,
      createCollection getChapter getVersesByChapter collectionName ranges
        today vault =
      (vault, .failed ("Error creating collection: " ++ msg)) := by
  obtain ⟨e, he⟩ := processRanges_error_of_fetch_error getChapter
    getVersesByChapter ranges r hr hf { allPages := [], body := "" }
  refine ⟨e, ?_⟩
  unfold createCollection
  rw [if_neg hok, he]

/-- Witness for C7: the verse fetch fails on the single range. -/
theorem createCollection_fetch_failure_no_write_witness :
    ∃ msg,
      createCollection (fun _ => Except.ok chapterTwo)
        (fun _ => Except.error "HTTP 500") "My Collection"
        ayatulKursiRanges "2026-10-12"
        { folders := [], files := [] } =
      ({ folders := [], files := [] },
        .failed ("Error creating collection: " ++ msg)) :=
  createCollection_fetch_failure_no_write (fun _ => Except.ok chapterTwo)
    (fun _ => Except.error "HTTP 500") "My Collection" ayatulKursiRanges
    "2026-10-12" { folders := [], files := [] }
    { surah := 2, startVerse := 255, endVerse := 255, label := none }
    (by decide) (by decide) (by decide)

/-- The filter `rangeFilter` only looks at the position within the section. -/
def rangePred (range : VerseRange) (n : Nat) : Bool :=
  decide (range.startVerse ≤ n) &&
    (decide (range.endVerse = 999) || decide (n ≤ range.endVerse))

theorem rangeFilter_eq_rangePred (range : VerseRange) (v : Verse) :
    rangeFilter range v = rangePred range v.verse_number := rfl

theorem map_verse_key_filter (l : List Verse) (p : Nat → Bool)
    (f : Nat → String)
    (hk : ∀ v ∈ l, v.verse_key = f v.verse_number) :
    (l.filter (fun v => p v.verse_number)).map (fun v => v.verse_key) =
      ((l.map (fun v => v.verse_number)).filter p).map f := by
  induction l with
  | nil => rfl
  | cons v vs ih =>
    have hv := hk v (List.mem_cons_self _ _)
    have ih' := ih (fun u hu => hk u (List.mem_cons_of_mem _ hu))
    by_cases hp : p v.verse_number
    · simp [List.filter_cons, hp, hv, ih']
    · simp [List.filter_cons, hp, ih']

theorem map_verse_number_filter (l : List Verse) (p : Nat → Bool) :
    (l.filter (fun v => p v.verse_number)).map (fun v => v.verse_number) =
      (l.map (fun v => v.verse_number)).filter p := by
  induction l with
  | nil => rfl
  | cons v vs ih =>
    by_cases hp : p v.verse_number
    · simp [List.filter_cons, hp, ih]
    · simp [List.filter_cons, hp, ih]

theorem rangeFilter_ayatul_kursi (v : Verse) :
    rangeFilter
      { surah := 2, startVerse := 255, endVerse := 255, label := none } v =
      decide (v.verse_number = 255) := by
  unfold rangeFilter
  by_cases h1 : 255 ≤ v.verse_number
  · by_cases h2 : v.verse_number ≤ 255
    · have he : v.verse_number = 255 := Nat.le_antisymm h2 h1
      simp [h1, h2, he]
    · have hne : ¬v.verse_number = 255 := by omega
      simp [h1, h2, hne]
  · have hne : ¬v.verse_number = 255 := by omega
    simp [h1, hne]

/-- Claim C8: for the range `{surah 2, start 255, end 255}` (the Ayatul
Kursi preset), if the fetched verse list for section 2 contains exactly
one verse at position 255 and verse keys follow the
`"section:position"` convention, the built body is the range header
followed by exactly one item block, and that block's verse is keyed
`"2:255"`. -/
theorem createCollection_ayatul_kursi_single_block
    (getChapter : Nat → Except String Chapter)
    (getVersesByChapter : Nat → Except String (List Verse))
    (chapter : Chapter) (allVerses : List Verse)
    (hc : getChapter 2 = .ok chapter)
    (hv : getVersesByChapter 2 = .ok allVerses)
    (hone : allVerses.countP (fun v => decide (v.verse_number = 255)) = 1)
    (hkeys : ∀ v ∈ allVerses,
      v.verse_key = "2:" ++ toString v.verse_number) :
    ∃ v acc,
      rangeFilteredVerses
        { surah := 2, startVerse := 255, endVerse := 255, label := none }
        allVerses = [v] ∧
      v.verse_key = "2:255" ∧
      processRanges getChapter getVersesByChapter ayatulKursiRanges
        { allPages := [], body := "" } = .ok acc ∧
      acc.body =
        rangeHeader
          { surah := 2, startVerse := 255, endVerse := 255, label := none }
          chapter ++ verseBlock v := by
  have hfe : rangeFilteredVerses
      { surah := 2, startVerse := 255, endVerse := 255, label := none }
      allVerses =
      allVerses.filter (fun v => decide (v.verse_number = 255)) := by
    unfold rangeFilteredVerses
    exact List.filter_congr (fun v _ => rangeFilter_ayatul_kursi v)
  have hlen :
      (allVerses.filter (fun v => decide (v.verse_number = 255))).length =
        1 := by
    rw [← List.countP_eq_length_filter]
    exact hone
  obtain ⟨v, hv1⟩ := List.length_eq_one.mp hlen
  have hvf : v ∈ allVerses.filter (fun v => decide (v.verse_number = 255)) := by
    rw [hv1]
    exact List.mem_singleton_self v
  have hvmem : v ∈ allVerses := (List.mem_filter.mp hvf).1
  have hv255 : v.verse_number = 255 :=
    of_decide_eq_true (List.mem_filter.mp hvf).2
  have hkey : v.verse_key = "2:255" := by
    rw [hkeys v hvmem, hv255]
    decide
  have hfiltered : rangeFilteredVerses
      { surah := 2, startVerse := 255, endVerse := 255, label := none }
      allVerses = [v] := by
    rw [hfe, hv1]
  have h1 := processRange_ok getChapter getVersesByChapter
    { surah := 2, startVerse := 255, endVerse := 255, label := none }
    chapter allVerses [] "" hc hv
  rw [hfiltered] at h1
  have hrun : processRanges getChapter getVersesByChapter ayatulKursiRanges
      { allPages := [], body := "" } = .ok
      { allPages := List.foldl addVersePage ([] : List Nat) [v],
        body := rangeHeader
          { surah := 2, startVerse := 255, endVerse := 255, label := none }
          chapter ++ verseBlock v } := by
    simp only [ayatulKursiRanges, processRanges]
    rw [h1]
    rfl
  exact ⟨v, _, hfiltered, hkey, hrun, rfl⟩

/-- Concrete verse and fetch data for the C8 witness. -/
def ayatKursiVerse : Verse :=
  { id := 262, verse_number := 255, verse_key := "2:255", chapter_id := 2,
    text_uthmani := "الله", page_number := 42, juz_number := 3,
    hizb_number := 1, translations := none }

def ayatKursiVerseNext : Verse :=
  { ayatKursiVerse with id := 263, verse_number := 256, verse_key := "2:256" }

/-- Witness for C8 on a two-verse fetched list. -/
theorem createCollection_ayatul_kursi_single_block_witness :
    ∃ v acc,
      rangeFilteredVerses
        { surah := 2, startVerse := 255, endVerse := 255, label := none }
        [ayatKursiVerse, ayatKursiVerseNext] = [v] ∧
      v.verse_key = "2:255" ∧
      processRanges (fun _ => Except.ok chapterTwo)
        (fun _ => Except.ok [ayatKursiVerse, ayatKursiVerseNext])
        ayatulKursiRanges
        { allPages := [], body := "" } = .ok acc ∧
      acc.body =
        rangeHeader
          { surah := 2, startVerse := 255, endVerse := 255, label := none }
          chapterTwo ++ verseBlock v :=
  createCollection_ayatul_kursi_single_block (fun _ => Except.ok chapterTwo)
    (fun _ => Except.ok [ayatKursiVerse, ayatKursiVerseNext]) chapterTwo
    [ayatKursiVerse, ayatKursiVerseNext] rfl rfl (by decide) (by decide)

/-- The two overlapping ranges of claim C9, in order. -/
def overlapRangeA : VerseRange :=
  { surah := 18, startVerse := 1, endVerse := 10, label := none }

def overlapRangeB : VerseRange :=
  { surah := 18, startVerse := 5, endVerse := 15, label := none }

theorem overlap_count_concrete : ∀ k ∈ Finset.Icc (5 : Nat) 10,
    ((List.range' 1 10).filter (rangePred overlapRangeA)).count k +
      ((List.range' 1 15).filter (rangePred overlapRangeB)).count k = 2 := by
  decide

theorem overlap_filterA :
    (List.range' 1 15).filter (rangePred overlapRangeA) =
      List.range' 1 10 := by decide

theorem overlap_filterB :
    (List.range' 1 15).filter (rangePred overlapRangeB) =
      List.range' 5 11 := by decide

/-- Claim C9: for the ranges `{18, 1–10}` then `{18, 5–15}`, given that
section 18's fetched verse list carries positions 1..15 in order with
`"18:position"` keys, each range's output lists its own filtered verses —
keys `18:1 .. 18:10` and `18:5 .. 18:15` respectively — so every item 5–10
appears twice, the two range outputs are concatenated in the order the
ranges were given, and nothing is merged or deduplicated. -/
theorem createCollection_overlapping_ranges_duplicate
    (getChapter : Nat → Except String Chapter)
    (getVersesByChapter : Nat → Except String (List Verse))
    (chapter : Chapter) (allVerses : List Verse)
    (hc : getChapter 18 = .ok chapter)
    (hv : getVersesByChapter 18 = .ok allVerses)
    (hmap : allVerses.map (fun v => v.verse_number) = List.range' 1 15)
    (hkeys : ∀ v ∈ allVerses,
      v.verse_key = "18:" ++ toString v.verse_number) :
    ((rangeFilteredVerses overlapRangeA allVerses).map
        (fun v => v.verse_key) =
      (List.range' 1 10).map (fun n => "18:" ++ toString n)) ∧
    ((rangeFilteredVerses overlapRangeB allVerses).map
        (fun v => v.verse_key) =
      (List.range' 5 11).map (fun n => "18:" ++ toString n)) ∧
    (∀ k, 5 ≤ k → k ≤ 10 →
      ((rangeFilteredVerses overlapRangeA allVerses ++
          rangeFilteredVerses overlapRangeB allVerses).map
        (fun v => v.verse_number)).count k = 2) ∧
    (∃ acc,
      processRanges getChapter getVersesByChapter
        [overlapRangeA, overlapRangeB] { allPages := [], body := "" } =
        .ok acc ∧
      acc.body =
        rangeHeader overlapRangeA chapter ++
          stringConcat ((rangeFilteredVerses overlapRangeA allVerses).map
            verseBlock) ++
          rangeHeader overlapRangeB chapter ++
          stringConcat ((rangeFilteredVerses overlapRangeB allVerses).map
            verseBlock)) := by
  have hA : (rangeFilteredVerses overlapRangeA allVerses).map
      (fun v => v.verse_key) =
      (List.range' 1 10).map (fun n => "18:" ++ toString n) := by
    unfold rangeFilteredVerses
    rw [show rangeFilter overlapRangeA =
        (fun v => rangePred overlapRangeA v.verse_number) from rfl]
    rw [map_verse_key_filter allVerses (rangePred overlapRangeA)
      (fun n => "18:" ++ toString n) hkeys]
    rw [hmap, overlap_filterA]
  have hB : (rangeFilteredVerses overlapRangeB allVerses).map
      (fun v => v.verse_key) =
      (List.range' 5 11).map (fun n => "18:" ++ toString n) := by
    unfold rangeFilteredVerses
    rw [show rangeFilter overlapRangeB =
        (fun v => rangePred overlapRangeB v.verse_number) from rfl]
    rw [map_verse_key_filter allVerses (rangePred overlapRangeB)
      (fun n => "18:" ++ toString n) hkeys]
    rw [hmap, overlap_filterB]
  refine ⟨hA, hB, ?_, ?_⟩
  · intro k hk5 hk10
    rw [List.map_append, List.count_append]
    rw [show (rangeFilteredVerses overlapRangeA allVerses).map
        (fun v => v.verse_number) =
        (allVerses.map (fun v => v.verse_number)).filter
          (rangePred overlapRangeA) from
      map_verse_number_filter allVerses (rangePred overlapRangeA)]
    rw [show (rangeFilteredVerses overlapRangeB allVerses).map
        (fun v => v.verse_number) =
        (allVerses.map (fun v => v.verse_number)).filter
          (rangePred overlapRangeB) from
      map_verse_number_filter allVerses (rangePred overlapRangeB)]
    rw [hmap, show (List.range' 1 15).filter (rangePred overlapRangeA) =
      (List.range' 1 10).filter (rangePred overlapRangeA) from by decide]
    exact overlap_count_concrete k (Finset.mem_Icc.mpr ⟨hk5, hk10⟩)
  · have h1 := processRange_ok getChapter getVersesByChapter overlapRangeA
      chapter allVerses [] "" hc hv
    have h2 := processRange_ok getChapter getVersesByChapter overlapRangeB
      chapter allVerses
      ((rangeFilteredVerses overlapRangeA allVerses).foldl addVersePage [])
      ("" ++ rangeHeader overlapRangeA chapter ++
        stringConcat ((rangeFilteredVerses overlapRangeA allVerses).map
          verseBlock)) hc hv
    refine ⟨{
        allPages :=
          (rangeFilteredVerses overlapRangeB allVerses).foldl addVersePage
            ((rangeFilteredVerses overlapRangeA allVerses).foldl
              addVersePage []),
        body :=
          "" ++ rangeHeader overlapRangeA chapter ++
            stringConcat ((rangeFilteredVerses overlapRangeA allVerses).map
              verseBlock) ++
            rangeHeader overlapRangeB chapter ++
            stringConcat ((rangeFilteredVerses overlapRangeB allVerses).map
              verseBlock) }, ?_, ?_⟩
    · simp only [processRanges]
      rw [h1]
      show processRanges getChapter getVersesByChapter [overlapRangeB]
        { allPages :=
            (rangeFilteredVerses overlapRangeA allVerses).foldl
              addVersePage [],
          body := "" ++ rangeHeader overlapRangeA chapter ++
            stringConcat ((rangeFilteredVerses overlapRangeA allVerses).map
              verseBlock) } = _
      simp only [processRanges]
      rw [h2]
    · rfl

/-- Concrete verses of section 18 for the C9 witness: positions 1..15. -/
def kahfVerse (n : Nat) : Verse :=
  { id := n, verse_number := n, verse_key := "18:" ++ toString n,
    chapter_id := 18, text_uthmani := "x", page_number := 293,
    juz_number := 15, hizb_number := 1, translations := none }

def kahfVerses : List Verse :=
  (List.range 15).map (fun i => kahfVerse (i + 1))

/-- Witness for C9: item 7 of section 18 appears twice across the two
ranges' outputs. -/
theorem createCollection_overlapping_ranges_duplicate_witness :
    ((rangeFilteredVerses overlapRangeA kahfVerses ++
        rangeFilteredVerses overlapRangeB kahfVerses).map
      (fun v => v.verse_number)).count 7 = 2 :=
  (createCollection_overlapping_ranges_duplicate
    (fun _ => Except.ok chapterTwo) (fun _ => Except.ok kahfVerses)
    chapterTwo kahfVerses rfl rfl (by decide) (by decide)).2.2.1 7
    (by decide) (by decide)

/-! ## Vault generator (src/generators/VaultGenerator.ts)

The generator is a sequence of four steps (folders, surah notes, page
notes, index) over the vault; any thrown error stops the remaining steps
and is reported as a notice.  A step is a function `Vault →
Vault × Option String` carrying the store reached so far and the first
error, if any; the progress notices and the rate-limit `sleep` have no
store effect and are not modelled. -/

structure VaultGeneratorOptions where
  includeTranslation : Bool
  translationId : Nat
  includeMushaf : Option Bool
  defaultViewMode : Option String
deriving DecidableEq, Repr

def genSeq (r : Vault × Option String)
    (f : Vault → Vault × Option String) : Vault × Option String :=
  match r with
  | (v, some e) => (v, some e)
  | (v, none) => f v

/-- Model of `String(x)` for a possibly-undefined JS number (an out-of-range index
prints as `undefined`). -/
def jsNumToString : Option Nat → String
  | some n => toString n
  | none => "undefined"

def buildSurahContent (chapter : Chapter) : String :=
  let pageLinks := String.intercalate "\n"
    (chapter.pages.map (fun p => "- [[Page " ++ padNumber p 3 ++ "]]"))
  let pagesJoined := String.intercalate ", " (chapter.pages.map toString)
  let firstPage := jsNumToString (chapter.pages.get? 0)
  let lastPage := jsNumToString (chapter.pages.get? (chapter.pages.length - 1))
  "---\n" ++
    ("surah: " ++ toString chapter.id ++ "\n") ++
    ("name_arabic: \"" ++ chapter.name_arabic ++ "\"\n") ++
    ("name_english: \"" ++ chapter.name_simple ++ "\"\n") ++
    ("verses_count: " ++ toString chapter.verses_count ++ "\n") ++
    ("revelation_place: \"" ++ chapter.revelation_place ++ "\"\n") ++
    ("pages: [" ++ pagesJoined ++ "]\n") ++
    "status: \"not_started\"\n" ++
    ("tags: [quran, surah, " ++ chapter.revelation_place ++ "]\n") ++
    "---\n" ++
    "\n" ++
    ("# " ++ chapter.name_simple ++ "\n") ++
    "\n" ++
    ("## " ++ chapter.name_arabic ++ "\n") ++
    "\n" ++
    "| Property | Value |\n" ++
    "|----------|-------|\n" ++
    ("| **English** | " ++ chapter.name_simple ++ " |\n") ++
    ("| **Verses** | " ++ toString chapter.verses_count ++ " |\n") ++
    ("| **Revelation** | " ++ chapter.revelation_place ++ " |\n") ++
    ("| **Pages** | " ++ firstPage ++ " - " ++ lastPage ++ " |\n") ++
    "\n" ++
    "## Pages in this Surah\n" ++
    "\n" ++
    (pageLinks ++ "\n") ++
    "\n" ++
    "## Reading Progress\n" ++
    "\n" ++
    "- [ ] Started reading\n" ++
    "- [ ] Completed reading\n" ++
    "- [ ] Memorized\n" ++
    "\n" ++
    "## Notes\n" ++
    "\n"

def buildPageContent (page : Nat) (verses : List Verse)
    (chapters : List Chapter) (juzNumber : Nat)
    (options : VaultGeneratorOptions) : String :=
  let surahLinks := String.intercalate ", " (chapters.map (fun c =>
    "[[" ++ padNumber c.id 3 ++ " - " ++ c.name_simple ++ "|" ++
      c.name_simple ++ "]]"))
  let firstVerse := (verses.head?.map (fun v => v.verse_key)).getD ""
  let lastVerse := (verses.getLast?.map (fun v => v.verse_key)).getD ""
  let versesContent := stringConcat (verses.map (fun verse =>
    let translationText :=
      if options.includeTranslation then
        match verse.translations with
        | some (t :: _) => stripHtml t.text
        | _ => ""
      else ""
    "### " ++ verse.verse_key ++ "\n\n" ++
      ("> " ++ verse.text_uthmani ++ "\n\n") ++
      (translationText ++ "\n\n") ++
      "---\n\n"))
  let includeMushaf := options.includeMushaf.getD false
  let defaultMode := options.defaultViewMode.getD "verse"
  let viewToggleBlock :=
    if includeMushaf then
      "```quran-view-toggle\n" ++ defaultMode ++ "\n```\n\n" ++
        "```quran-mushaf\n```\n\n"
    else ""
  let surahIds := String.intercalate ", "
    (chapters.map (fun c => toString c.id))
  "---\n" ++
    ("page: " ++ toString page ++ "\n") ++
    ("juz: " ++ toString juzNumber ++ "\n") ++
    ("surahs: [" ++ surahIds ++ "]\n") ++
    ("first_verse: \"" ++ firstVerse ++ "\"\n") ++
    ("last_verse: \"" ++ lastVerse ++ "\"\n") ++
    "status: \"not_read\"\n" ++
    "memorized: false\n" ++
    ("tags: [quran, page, juz-" ++ toString juzNumber ++ "]\n") ++
    "---\n" ++
    "\n" ++
    ("# Page " ++ toString page ++ "\n") ++
    "\n" ++
    ("**Surahs:** " ++ surahLinks ++ "\n") ++
    ("**Juz:** [[Juz " ++ padNumber juzNumber 2 ++ "]]\n") ++
    ("**Verses:** " ++ firstVerse ++ " → " ++ lastVerse ++ "\n") ++
    "\n" ++
    "---\n" ++
    "\n" ++
    viewToggleBlock ++ versesContent ++
    "## Status\n" ++
    "\n" ++
    "- [ ] Read\n" ++
    "- [ ] Memorized\n" ++
    "- [ ] Reviewed\n"

def indexContent : String :=
  "---\n" ++
    "tags: [quran, index]\n" ++
    "---\n" ++
    "\n" ++
    "# Quran Index\n" ++
    "\n" ++
    "## Quick Navigation\n" ++
    "\n" ++
    "### By Surah\n" ++
    "```dataview\n" ++
    "TABLE name_arabic as \"Arabic\", verses_count as \"Verses\", status\n" ++
    "FROM \"Quran/Surahs\"\n" ++
    "SORT surah ASC\n" ++
    "```\n" ++
    "\n" ++
    "### Reading Progress\n" ++
    "```dataview\n" ++
    "TABLE length(filter(file.tasks, (t) => t.completed)) as \"Completed\"\n" ++
    "FROM \"Quran/Pages\"\n" ++
    "WHERE status = \"read\"\n" ++
    "```\n" ++
    "\n" ++
    "### Memorization Progress\n" ++
    "```dataview\n" ++
    "LIST\n" ++
    "FROM \"Quran/Pages\"\n" ++
    "WHERE memorized = true\n" ++
    "SORT page ASC\n" ++
    "```\n" ++
    "\n" ++
    "## Statistics\n" ++
    "\n" ++
    "- **Total Surahs:** 114\n" ++
    "- **Total Pages:** 604\n" ++
    "- **Total Juz:** 30\n"

def ensureFolder (v : Vault) (folder : String) : Vault :=
  if vaultHasAbstractFile v (normalizePath ("Quran/" ++ folder)) then v
  else vaultCreateFolder v (normalizePath ("Quran/" ++ folder))

def createFolders (v : Vault) : Vault × Option String :=
  (["Surahs", "Pages", "Juz", "Collections"].foldl ensureFolder v, none)

def surahNotePath (chapter : Chapter) : String :=
  normalizePath ("Quran/Surahs/" ++ padNumber chapter.id 3 ++ " - " ++
    chapter.name_simple ++ ".md")

def surahNotesLoop : List Chapter → Vault → Vault × Option String
  | [], v => (v, none)
  | chapter :: rest, v =>
    if vaultHasAbstractFile v (surahNotePath chapter) then
      surahNotesLoop rest v
    else
      match vaultCreate v (surahNotePath chapter)
          (buildSurahContent chapter) with
      | .ok v' => surahNotesLoop rest v'
      | .error e => (v, some e)

def generateSurahNotes (getChapters : Except String (List Chapter))
    (v : Vault) : Vault × Option String :=
  match getChapters with
  | .error e => (v, some e)
  | .ok chapters => surahNotesLoop chapters v

def pageNotePath (page : Nat) : String :=
  normalizePath ("Quran/Pages/Page " ++ padNumber page 3 ++ ".md")

/-- The content created for one page note given the fetched verses, the
resolved chapter map and the page→division map. -/
def pageNoteContent (chapterMap : List (Nat × Chapter))
    (juzPageMap : List (Nat × Nat)) (options : VaultGeneratorOptions)
    (page : Nat) (verses : List Verse) : String :=
  let chapterIds := jsSetToList
    ((verses.map (fun v => v.chapter_id)).filter (fun i => decide (0 < i)))
  let chapters := chapterIds.filterMap (fun i => jsMapGet chapterMap i)
  buildPageContent page verses chapters (pageJuzNumber juzPageMap page)
    options

def pageNotesLoop (getVersesByPage : Nat → Except String (List Verse))
    (chapterMap : List (Nat × Chapter)) (juzPageMap : List (Nat × Nat))
    (options : VaultGeneratorOptions) :
    List Nat → Vault → Vault × Option String
  | [], v => (v, none)
  | page :: rest, v =>
    if vaultHasAbstractFile v (pageNotePath page) then
      pageNotesLoop getVersesByPage chapterMap juzPageMap options rest v
    else
      match getVersesByPage page with
      | .error e => (v, some e)
      | .ok verses =>
        match vaultCreate v (pageNotePath page)
            (pageNoteContent chapterMap juzPageMap options page verses) with
        | .ok v' =>
          pageNotesLoop getVersesByPage chapterMap juzPageMap options rest v'
        | .error e => (v, some e)

def generatePageNotes (getChapters : Except String (List Chapter))
    (getJuzs : Except String (List Juz))
    (getVersesByPage : Nat → Except String (List Verse))
    (options : VaultGeneratorOptions) (v : Vault) :
    Vault × Option String :=
  match getChapters with
  | .error e => (v, some e)
  | .ok allChapters =>
    match getJuzs with
    | .error e => (v, some e)
    | .ok juzs =>
      pageNotesLoop getVersesByPage
        (allChapters.foldl (fun m ch => jsMapSet m ch.id ch) [])
        (buildJuzPageMap juzs) options (List.range' 1 604) v

def indexPath : String := normalizePath "Quran/_Index.md"

def generateIndex (v : Vault) : Vault × Option String :=
  if vaultHasAbstractFile v indexPath then (v, none)
  else
    match vaultCreate v indexPath indexContent with
    | .ok v' => (v', none)
    | .error e => (v, some e)

def generateFullVault (getChapters : Except String (List Chapter))
    (getJuzs : Except String (List Juz))
    (getVersesByPage : Nat → Except String (List Verse))
    (options : VaultGeneratorOptions) (v : Vault) :
    Vault × Option String :=
  genSeq (genSeq (genSeq (createFolders v)
    (generateSurahNotes getChapters))
    (generatePageNotes getChapters getJuzs getVersesByPage options))
    generateIndex

/-! ## Idempotence machinery for the generator -/

/-- The store `w` extends `v`: every folder and every stored blob of `v` is still
present, unchanged, in `w`. -/
def vaultExtends (w v : Vault) : Prop :=
  (∀ f ∈ v.folders, f ∈ w.folders) ∧ (∀ e ∈ v.files, e ∈ w.files)

theorem vaultExtends_refl (v : Vault) : vaultExtends v v :=
  ⟨fun _ h => h, fun _ h => h⟩

theorem vaultExtends_trans {u v w : Vault} (h1 : vaultExtends v u)
    (h2 : vaultExtends w v) : vaultExtends w u :=
  ⟨fun f hf => h2.1 f (h1.1 f hf), fun e he => h2.2 e (h1.2 e he)⟩

theorem vaultExtends_append_file (v : Vault) (p c : String) :
    vaultExtends { v with files := v.files ++ [(p, c)] } v :=
  ⟨fun f hf => hf, fun e he => List.mem_append_left _ he⟩

theorem vaultHasAbstractFile_mono {v w : Vault} (h : vaultExtends w v)
    (p : String) (hp : vaultHasAbstractFile v p = true) :
    vaultHasAbstractFile w p = true := by
  unfold vaultHasAbstractFile at hp ⊢
  simp only [Bool.or_eq_true, decide_eq_true_eq] at hp ⊢
  rcases hp with hp | hp
  · exact Or.inl (h.1 p hp)
  · right
    unfold jsMapKeys at hp ⊢
    rcases List.mem_map.mp hp with ⟨e, he, hep⟩
    exact List.mem_map.mpr ⟨e, h.2 e he, hep⟩

theorem not_has_not_mem_files {v : Vault} {p : String}
    (h : vaultHasAbstractFile v p = false) : p ∉ jsMapKeys v.files := by
  simp only [vaultHasAbstractFile, Bool.or_eq_false_iff,
    decide_eq_false_iff_not] at h
  exact h.2

theorem vaultCreate_ok_of_not_has {v : Vault} {p : String} (c : String)
    (h : vaultHasAbstractFile v p = false) :
    vaultCreate v p c = .ok { v with files := v.files ++ [(p, c)] } := by
  unfold vaultCreate
  rw [if_neg (not_has_not_mem_files h)]

theorem has_append_file_self (v : Vault) (p c : String) :
    vaultHasAbstractFile { v with files := v.files ++ [(p, c)] } p =
      true := by
  simp [vaultHasAbstractFile, jsMapKeys]

/-- The three facts needed of each generation step: it only extends the
store; an erroring run replays identically on its own output; a
successful run is a no-op on any extension of its own output. -/
structure StepGood (S : Vault → Vault × Option String) : Prop where
  mono : ∀ v, vaultExtends (S v).1 v
  errStable : ∀ v v' e, S v = (v', some e) → S v' = (v', some e)
  okStable : ∀ v v' w, S v = (v', none) → vaultExtends w v' →
    S w = (w, none)

theorem stepGood_comp {S T : Vault → Vault × Option String}
    (hS : StepGood S) (hT : StepGood T) :
    StepGood (fun v => genSeq (S v) T) := by
  constructor
  · intro v
    cases hSv : S v with
    | mk v1 e1 =>
      have h1 : vaultExtends v1 v := by
        have hm := hS.mono v
        rw [hSv] at hm
        exact hm
      cases e1 with
      | some e1 => exact h1
      | none => exact vaultExtends_trans h1 (hT.mono v1)
  · intro v v' e h
    cases hSv : S v with
    | mk v1 e1 =>
      rw [hSv] at h
      cases e1 with
      | some e1 =>
        have h' : ((v1, some e1) : Vault × Option String) = (v', some e) := h
        cases h'
        show genSeq (S v') T = (v', some e)
        rw [hS.errStable v v' e hSv]
        rfl
      | none =>
        have h' : T v1 = (v', some e) := h
        have hTs := hT.errStable v1 v' e h'
        have hmT : vaultExtends v' v1 := by
          have hm := hT.mono v1
          rw [h'] at hm
          exact hm
        have hSs := hS.okStable v v1 v' hSv hmT
        show genSeq (S v') T = (v', some e)
        rw [hSs]
        exact hTs
  · intro v v' w h hw
    cases hSv : S v with
    | mk v1 e1 =>
      rw [hSv] at h
      cases e1 with
      | some e1 =>
        have h' : ((v1, some e1) : Vault × Option String) = (v', none) := h
        cases h'
      | none =>
        have h' : T v1 = (v', none) := h
        have hmv1 : vaultExtends v' v1 := by
          have hm := hT.mono v1
          rw [h'] at hm
          exact hm
        have hSw : S w = (w, none) :=
          hS.okStable v v1 w hSv (vaultExtends_trans hmv1 hw)
        have hTw : T w = (w, none) := hT.okStable v1 v' w h' hw
        show genSeq (S w) T = (w, none)
        rw [hSw]
        exact hTw

theorem stepGood_run_twice {S : Vault → Vault × Option String}
    (hS : StepGood S) (v : Vault) : S (S v).1 = S v := by
  cases hSv : S v with
  | mk v' e =>
    cases e with
    | none => exact hS.okStable v v' v' hSv (vaultExtends_refl v')
    | some e => exact hS.errStable v v' e hSv

theorem bool_eq_false_of_not_true {b : Bool} (h : ¬b = true) : b = false := by
  cases b
  · rfl
  · exact absurd rfl h

theorem ensureFolder_extends (v : Vault) (f : String) :
    vaultExtends (ensureFolder v f) v := by
  unfold ensureFolder
  by_cases hb : vaultHasAbstractFile v (normalizePath ("Quran/" ++ f)) = true
  · rw [if_pos hb]
    exact vaultExtends_refl v
  · rw [if_neg hb]
    exact ⟨fun g hg => List.mem_append_left _ hg, fun e he => he⟩

theorem foldl_ensureFolder_extends (l : List String) (v : Vault) :
    vaultExtends (l.foldl ensureFolder v) v := by
  induction l generalizing v with
  | nil => exact vaultExtends_refl v
  | cons f fs ih =>
    rw [List.foldl_cons]
    exact vaultExtends_trans (ensureFolder_extends v f)
      (ih (ensureFolder v f))

theorem has_ensureFolder_self (v : Vault) (f : String) :
    vaultHasAbstractFile (ensureFolder v f)
      (normalizePath ("Quran/" ++ f)) = true := by
  unfold ensureFolder
  by_cases hb : vaultHasAbstractFile v (normalizePath ("Quran/" ++ f)) = true
  · rw [if_pos hb]
    exact hb
  · rw [if_neg hb]
    simp [vaultCreateFolder, vaultHasAbstractFile]

theorem foldl_ensureFolder_has (l : List String) (v : Vault) :
    ∀ f ∈ l, vaultHasAbstractFile (l.foldl ensureFolder v)
      (normalizePath ("Quran/" ++ f)) = true := by
  induction l generalizing v with
  | nil =>
    intro f hf
    cases hf
  | cons g gs ih =>
    intro f hf
    rw [List.foldl_cons]
    rcases List.mem_cons.mp hf with he | hm
    · subst he
      exact vaultHasAbstractFile_mono
        (foldl_ensureFolder_extends gs (ensureFolder v f)) _
        (has_ensureFolder_self v f)
    · exact ih (ensureFolder v g) f hm

theorem foldl_ensureFolder_all_has (l : List String) (v : Vault)
    (h : ∀ f ∈ l,
      vaultHasAbstractFile v (normalizePath ("Quran/" ++ f)) = true) :
    l.foldl ensureFolder v = v := by
  induction l with
  | nil => rfl
  | cons g gs ih =>
    rw [List.foldl_cons]
    have hg : ensureFolder v g = v := by
      unfold ensureFolder
      rw [if_pos (h g (List.mem_cons_self _ _))]
    rw [hg]
    exact ih (fun f hf => h f (List.mem_cons_of_mem _ hf))

theorem createFolders_stepGood : StepGood createFolders := by
  constructor
  · intro v
    exact foldl_ensureFolder_extends _ v
  · intro v v' e h
    unfold createFolders at h
    cases h
  · intro v v' w h hw
    unfold createFolders at h ⊢
    cases h
    have hall : ∀ f ∈ ["Surahs", "Pages", "Juz", "Collections"],
        vaultHasAbstractFile w (normalizePath ("Quran/" ++ f)) = true := by
      intro f hf
      exact vaultHasAbstractFile_mono hw _ (foldl_ensureFolder_has _ v f hf)
    rw [foldl_ensureFolder_all_has _ w hall]

theorem surahNotesLoop_extends (cs : List Chapter) (v : Vault) :
    vaultExtends (surahNotesLoop cs v).1 v := by
  induction cs generalizing v with
  | nil => exact vaultExtends_refl v
  | cons c cs ih =>
    unfold surahNotesLoop
    by_cases hb : vaultHasAbstractFile v (surahNotePath c) = true
    · rw [if_pos hb]
      exact ih v
    · rw [if_neg hb]
      rw [vaultCreate_ok_of_not_has (buildSurahContent c)
        (bool_eq_false_of_not_true hb)]
      exact vaultExtends_trans (vaultExtends_append_file v _ _) (ih _)

theorem surahNotesLoop_errStable (cs : List Chapter) :
    ∀ v v' e, surahNotesLoop cs v = (v', some e) →
      surahNotesLoop cs v' = (v', some e) := by
  induction cs with
  | nil =>
    intro v v' e h
    cases h
  | cons c cs ih =>
    intro v v' e h
    unfold surahNotesLoop at h ⊢
    by_cases hb : vaultHasAbstractFile v (surahNotePath c) = true
    · rw [if_pos hb] at h
      have hext : vaultExtends v' v := by
        have hx := surahNotesLoop_extends cs v
        rw [h] at hx
        exact hx
      rw [if_pos (vaultHasAbstractFile_mono hext _ hb)]
      exact ih v v' e h
    · rw [if_neg hb] at h
      rw [vaultCreate_ok_of_not_has (buildSurahContent c)
        (bool_eq_false_of_not_true hb)] at h
      have h' : surahNotesLoop cs
          { v with files :=
            v.files ++ [(surahNotePath c, buildSurahContent c)] } =
          (v', some e) := h
      have hrec := ih _ v' e h'
      have hext : vaultExtends v'
          { v with files :=
            v.files ++ [(surahNotePath c, buildSurahContent c)] } := by
        have hx := surahNotesLoop_extends cs
          { v with files :=
            v.files ++ [(surahNotePath c, buildSurahContent c)] }
        rw [h'] at hx
        exact hx
      rw [if_pos (vaultHasAbstractFile_mono hext _
        (has_append_file_self v _ _))]
      exact hrec

theorem surahNotesLoop_ok_has (cs : List Chapter) :
    ∀ v v', surahNotesLoop cs v = (v', none) →
      ∀ c ∈ cs, vaultHasAbstractFile v' (surahNotePath c) = true := by
  induction cs with
  | nil =>
    intro v v' h c hc
    cases hc
  | cons c0 cs ih =>
    intro v v' h c hc
    unfold surahNotesLoop at h
    by_cases hb : vaultHasAbstractFile v (surahNotePath c0) = true
    · rw [if_pos hb] at h
      have hext : vaultExtends v' v := by
        have hx := surahNotesLoop_extends cs v
        rw [h] at hx
        exact hx
      rcases List.mem_cons.mp hc with he | hm
      · subst he
        exact vaultHasAbstractFile_mono hext _ hb
      · exact ih v v' h c hm
    · rw [if_neg hb] at h
      rw [vaultCreate_ok_of_not_has (buildSurahContent c0)
        (bool_eq_false_of_not_true hb)] at h
      have h' : surahNotesLoop cs
          { v with files :=
            v.files ++ [(surahNotePath c0, buildSurahContent c0)] } =
          (v', none) := h
      have hext : vaultExtends v'
          { v with files :=
            v.files ++ [(surahNotePath c0, buildSurahContent c0)] } := by
        have hx := surahNotesLoop_extends cs
          { v with files :=
            v.files ++ [(surahNotePath c0, buildSurahContent c0)] }
        rw [h'] at hx
        exact hx
      rcases List.mem_cons.mp hc with he | hm
      · subst he
        exact vaultHasAbstractFile_mono hext _ (has_append_file_self v _ _)
      · exact ih _ v' h' c hm

theorem surahNotesLoop_all_has (cs : List Chapter) (w : Vault)
    (h : ∀ c ∈ cs, vaultHasAbstractFile w (surahNotePath c) = true) :
    surahNotesLoop cs w = (w, none) := by
  induction cs with
  | nil => rfl
  | cons c cs ih =>
    unfold surahNotesLoop
    rw [if_pos (h c (List.mem_cons_self _ _))]
    exact ih (fun u hu => h u (List.mem_cons_of_mem _ hu))

theorem generateSurahNotes_stepGood (g : Except String (List Chapter)) :
    StepGood (generateSurahNotes g) := by
  constructor
  · intro v
    unfold generateSurahNotes
    cases g with
    | error e => exact vaultExtends_refl v
    | ok cs => exact surahNotesLoop_extends cs v
  · intro v v' e h
    unfold generateSurahNotes at h ⊢
    cases g with
    | error e0 =>
      cases h
      rfl
    | ok cs => exact surahNotesLoop_errStable cs v v' e h
  · intro v v' w h hw
    unfold generateSurahNotes at h ⊢
    cases g with
    | error e0 => cases h
    | ok cs =>
      exact surahNotesLoop_all_has cs w (fun c hc =>
        vaultHasAbstractFile_mono hw _ (surahNotesLoop_ok_has cs v v' h c hc))

theorem pageNotesLoop_extends (gv : Nat → Except String (List Verse))
    (cm : List (Nat × Chapter)) (jm : List (Nat × Nat))
    (options : VaultGeneratorOptions) (ps : List Nat) (v : Vault) :
    vaultExtends (pageNotesLoop gv cm jm options ps v).1 v := by
  induction ps generalizing v with
  | nil => exact vaultExtends_refl v
  | cons p ps ih =>
    unfold pageNotesLoop
    by_cases hb : vaultHasAbstractFile v (pageNotePath p) = true
    · rw [if_pos hb]
      exact ih v
    · rw [if_neg hb]
      cases hf : gv p with
      | error e => exact vaultExtends_refl v
      | ok verses =>
        show vaultExtends ((match vaultCreate v (pageNotePath p)
            (pageNoteContent cm jm options p verses) with
          | Except.ok v2 => pageNotesLoop gv cm jm options ps v2
          | Except.error e => (v, some e)).1) v
        rw [vaultCreate_ok_of_not_has (pageNoteContent cm jm options p verses)
          (bool_eq_false_of_not_true hb)]
        exact vaultExtends_trans (vaultExtends_append_file v _ _) (ih _)

theorem pageNotesLoop_errStable (gv : Nat → Except String (List Verse))
    (cm : List (Nat × Chapter)) (jm : List (Nat × Nat))
    (options : VaultGeneratorOptions) (ps : List Nat) :
    ∀ v v' e, pageNotesLoop gv cm jm options ps v = (v', some e) →
      pageNotesLoop gv cm jm options ps v' = (v', some e) := by
  induction ps with
  | nil =>
    intro v v' e h
    cases h
  | cons p ps ih =>
    intro v v' e h
    unfold pageNotesLoop at h ⊢
    by_cases hb : vaultHasAbstractFile v (pageNotePath p) = true
    · rw [if_pos hb] at h
      have hext : vaultExtends v' v := by
        have hx := pageNotesLoop_extends gv cm jm options ps v
        rw [h] at hx
        exact hx
      rw [if_pos (vaultHasAbstractFile_mono hext _ hb)]
      exact ih v v' e h
    · rw [if_neg hb] at h
      cases hf : gv p with
      | error e0 =>
        rw [hf] at h
        have h' : ((v, some e0) : Vault × Option String) = (v', some e) := h
        cases h'
        rw [if_neg hb]
      | ok verses =>
        rw [hf] at h
        have h2 : (match vaultCreate v (pageNotePath p)
            (pageNoteContent cm jm options p verses) with
          | Except.ok v2 => pageNotesLoop gv cm jm options ps v2
          | Except.error e => ((v, some e) : Vault × Option String)) =
            (v', some e) := h
        rw [vaultCreate_ok_of_not_has (pageNoteContent cm jm options p verses)
          (bool_eq_false_of_not_true hb)] at h2
        have h' : pageNotesLoop gv cm jm options ps
            { v with files := v.files ++
              [(pageNotePath p, pageNoteContent cm jm options p verses)] } =
            (v', some e) := h2
        have hrec := ih _ v' e h'
        have hext : vaultExtends v'
            { v with files := v.files ++
              [(pageNotePath p, pageNoteContent cm jm options p verses)] } := by
          have hx := pageNotesLoop_extends gv cm jm options ps
            { v with files := v.files ++
              [(pageNotePath p, pageNoteContent cm jm options p verses)] }
          rw [h'] at hx
          exact hx
        rw [if_pos (vaultHasAbstractFile_mono hext _
          (has_append_file_self v _ _))]
        exact hrec

theorem pageNotesLoop_ok_has (gv : Nat → Except String (List Verse))
    (cm : List (Nat × Chapter)) (jm : List (Nat × Nat))
    (options : VaultGeneratorOptions) (ps : List Nat) :
    ∀ v v', pageNotesLoop gv cm jm options ps v = (v', none) →
      ∀ p ∈ ps, vaultHasAbstractFile v' (pageNotePath p) = true := by
  induction ps with
  | nil =>
    intro v v' h p hp
    cases hp
  | cons p0 ps ih =>
    intro v v' h p hp
    unfold pageNotesLoop at h
    by_cases hb : vaultHasAbstractFile v (pageNotePath p0) = true
    · rw [if_pos hb] at h
      have hext : vaultExtends v' v := by
        have hx := pageNotesLoop_extends gv cm jm options ps v
        rw [h] at hx
        exact hx
      rcases List.mem_cons.mp hp with he | hm
      · subst he
        exact vaultHasAbstractFile_mono hext _ hb
      · exact ih v v' h p hm
    · rw [if_neg hb] at h
      cases hf : gv p0 with
      | error e0 =>
        rw [hf] at h
        cases h
      | ok verses =>
        rw [hf] at h
        have h2 : (match vaultCreate v (pageNotePath p0)
            (pageNoteContent cm jm options p0 verses) with
          | Except.ok v2 => pageNotesLoop gv cm jm options ps v2
          | Except.error e => ((v, some e) : Vault × Option String)) =
            (v', none) := h
        rw [vaultCreate_ok_of_not_has (pageNoteContent cm jm options p0 verses)
          (bool_eq_false_of_not_true hb)] at h2
        have h' : pageNotesLoop gv cm jm options ps
            { v with files := v.files ++
              [(pageNotePath p0, pageNoteContent cm jm options p0 verses)] } =
            (v', none) := h2
        have hext : vaultExtends v'
            { v with files := v.files ++
              [(pageNotePath p0,
                pageNoteContent cm jm options p0 verses)] } := by
          have hx := pageNotesLoop_extends gv cm jm options ps
            { v with files := v.files ++
              [(pageNotePath p0, pageNoteContent cm jm options p0 verses)] }
          rw [h'] at hx
          exact hx
        rcases List.mem_cons.mp hp with he | hm
        · subst he
          exact vaultHasAbstractFile_mono hext _ (has_append_file_self v _ _)
        · exact ih _ v' h' p hm

theorem pageNotesLoop_all_has (gv : Nat → Except String (List Verse))
    (cm : List (Nat × Chapter)) (jm : List (Nat × Nat))
    (options : VaultGeneratorOptions) (ps : List Nat) (w : Vault)
    (h : ∀ p ∈ ps, vaultHasAbstractFile w (pageNotePath p) = true) :
    pageNotesLoop gv cm jm options ps w = (w, none) := by
  induction ps with
  | nil => rfl
  | cons p ps ih =>
    unfold pageNotesLoop
    rw [if_pos (h p (List.mem_cons_self _ _))]
    exact ih (fun q hq => h q (List.mem_cons_of_mem _ hq))

theorem generatePageNotes_stepGood (gc : Except String (List Chapter))
    (gj : Except String (List Juz)) (gv : Nat → Except String (List Verse))
    (options : VaultGeneratorOptions) :
    StepGood (generatePageNotes gc gj gv options) := by
  constructor
  · intro v
    unfold generatePageNotes
    cases gc with
    | error e => exact vaultExtends_refl v
    | ok cs =>
      cases gj with
      | error e => exact vaultExtends_refl v
      | ok js => exact pageNotesLoop_extends gv _ _ options _ v
  · intro v v' e h
    unfold generatePageNotes at h ⊢
    cases gc with
    | error e0 =>
      cases h
      rfl
    | ok cs =>
      cases gj with
      | error e0 =>
        cases h
        rfl
      | ok js => exact pageNotesLoop_errStable gv _ _ options _ v v' e h
  · intro v v' w h hw
    unfold generatePageNotes at h ⊢
    cases gc with
    | error e0 => cases h
    | ok cs =>
      cases gj with
      | error e0 => cases h
      | ok js =>
        exact pageNotesLoop_all_has gv _ _ options _ w (fun p hp =>
          vaultHasAbstractFile_mono hw _
            (pageNotesLoop_ok_has gv _ _ options _ v v' h p hp))

theorem generateIndex_stepGood : StepGood generateIndex := by
  constructor
  · intro v
    unfold generateIndex
    by_cases hb : vaultHasAbstractFile v indexPath = true
    · rw [if_pos hb]
      exact vaultExtends_refl v
    · rw [if_neg hb]
      rw [vaultCreate_ok_of_not_has indexContent
        (bool_eq_false_of_not_true hb)]
      exact vaultExtends_append_file v _ _
  · intro v v' e h
    unfold generateIndex at h
    by_cases hb : vaultHasAbstractFile v indexPath = true
    · rw [if_pos hb] at h
      cases h
    · rw [if_neg hb] at h
      rw [vaultCreate_ok_of_not_has indexContent
        (bool_eq_false_of_not_true hb)] at h
      have h' : (({ v with files := v.files ++ [(indexPath, indexContent)] },
          none) : Vault × Option String) = (v', some e) := h
      cases h'
  · intro v v' w h hw
    unfold generateIndex at h ⊢
    by_cases hb : vaultHasAbstractFile v indexPath = true
    · rw [if_pos hb] at h
      have h' : ((v, none) : Vault × Option String) = (v', none) := h
      cases h'
      rw [if_pos (vaultHasAbstractFile_mono hw _ hb)]
    · rw [if_neg hb] at h
      rw [vaultCreate_ok_of_not_has indexContent
        (bool_eq_false_of_not_true hb)] at h
      have h' : (({ v with files := v.files ++ [(indexPath, indexContent)] },
          none) : Vault × Option String) = (v', none) := h
      cases h'
      rw [if_pos (vaultHasAbstractFile_mono hw _ (has_append_file_self v _ _))]

theorem generateFullVault_stepGood (gc : Except String (List Chapter))
    (gj : Except String (List Juz)) (gv : Nat → Except String (List Verse))
    (options : VaultGeneratorOptions) :
    StepGood (generateFullVault gc gj gv options) :=
  stepGood_comp
    (stepGood_comp
      (stepGood_comp createFolders_stepGood (generateSurahNotes_stepGood gc))
      (generatePageNotes_stepGood gc gj gv options))
    generateIndex_stepGood

/-- Counterexample to claim C3 as stated: collection creation performs no
existence check — at an occupied target path the create is attempted,
rejected by the store, and reported as an error, not silently skipped
(contrast the index generator on the same kind of store, which checks
first and returns without error).  The existing document is left
unchanged. -/
theorem createCollection_existing_path_counterexample :
    createCollection (fun _ => Except.ok chapterTwo)
        (fun _ => Except.ok [ayatKursiVerse]) "AK" ayatulKursiRanges
        "2026-10-12"
        { folders := ["Quran/Collections"],
          files := [("Quran/Collections/AK.md", "old")] } =
      ({ folders := ["Quran/Collections"],
          files := [("Quran/Collections/AK.md", "old")] },
        .failed "Error creating collection: File already exists") ∧
    generateIndex { folders := [], files := [(indexPath, "old")] } =
      ({ folders := [], files := [(indexPath, "old")] }, none) := by
  constructor
  · decide
  · decide

/-- Claim C3 (amended): the vault generator (surah notes, page notes,
index) checks existence before each creation: a full generation run never
changes or removes existing store entries, and running it on its own
output reproduces that output exactly (twice = once).  Collection
creation performs no existence check; at an occupied path the store
rejects the create — as forced by the counterexample, this is an error
notice, not a silent no-op — and the stored documents are left exactly as
they were, so no generated document is ever duplicated or overwritten. -/
theorem generateFullVault_idempotent_collection_rejected :
    (∀ (gc : Except String (List Chapter)) (gj : Except String (List Juz))
      (gv : Nat → Except String (List Verse))
      (options : VaultGeneratorOptions) (v : Vault),
      generateFullVault gc gj gv options
          (generateFullVault gc gj gv options v).1 =
        generateFullVault gc gj gv options v ∧
      vaultExtends (generateFullVault gc gj gv options v).1 v) ∧
    (∀ (getChapter : Nat → Except String Chapter)
      (getVersesByChapter : Nat → Except String (List Verse))
      (name : String) (ranges : List VerseRange) (today : String)
      (vault : Vault),
      ¬(name = "" ∨ ranges = []) →
      normalizePath ("Quran/Collections/" ++ sanitizeName name ++ ".md") ∈
        jsMapKeys vault.files →
      ∃ msg v',
        createCollection getChapter getVersesByChapter name ranges today
            vault =
          (v', .failed ("Error creating collection: " ++ msg)) ∧
        v'.files = vault.files) := by
  constructor
  · intro gc gj gv options v
    exact ⟨stepGood_run_twice (generateFullVault_stepGood gc gj gv options) v,
      (generateFullVault_stepGood gc gj gv options).mono v⟩
  · intro getChapter getVersesByChapter name ranges today vault hok hmem
    unfold createCollection
    rw [if_neg hok]
    cases hp : processRanges getChapter getVersesByChapter ranges
        { allPages := [], body := "" } with
    | error e =>
      simp only [hp]
      exact ⟨e, vault, rfl, rfl⟩
    | ok acc =>
      simp only [hp]
      have hcr : vaultCreate
          (if vaultHasAbstractFile vault (normalizePath "Quran/Collections")
           then vault
           else vaultCreateFolder vault (normalizePath "Quran/Collections"))
          (normalizePath
            ("Quran/Collections/" ++ sanitizeName name ++ ".md"))
          (collectionContent name ranges today acc.body
            (List.insertionSort (· ≤ ·) acc.allPages)) =
          Except.error "File already exists" := by
        by_cases hfold : vaultHasAbstractFile vault
            (normalizePath "Quran/Collections") = true
        · rw [if_pos hfold]
          unfold vaultCreate
          rw [if_pos hmem]
        · rw [if_neg hfold]
          unfold vaultCreate
          rw [if_pos (show normalizePath
              ("Quran/Collections/" ++ sanitizeName name ++ ".md") ∈
              jsMapKeys (vaultCreateFolder vault
                (normalizePath "Quran/Collections")).files from hmem)]
      simp only [hcr]
      by_cases hfold : vaultHasAbstractFile vault
          (normalizePath "Quran/Collections") = true
      · simp only [if_pos hfold]
        exact ⟨"File already exists", vault, rfl, rfl⟩
      · simp only [if_neg hfold]
        exact ⟨"File already exists",
          vaultCreateFolder vault (normalizePath "Quran/Collections"),
          rfl, rfl⟩

/-- Witness for the amended C3 at a concrete occupied path. -/
theorem generateFullVault_idempotent_collection_rejected_witness :
    ∃ msg v',
      createCollection (fun _ => Except.ok chapterTwo)
          (fun _ => Except.ok [ayatKursiVerse]) "AK" ayatulKursiRanges
          "2026-10-12"
          { folders := ["Quran/Collections"],
            files := [("Quran/Collections/AK.md", "old")] } =
        (v', .failed ("Error creating collection: " ++ msg)) ∧
      v'.files = [("Quran/Collections/AK.md", "old")] :=
  generateFullVault_idempotent_collection_rejected.2
    (fun _ => Except.ok chapterTwo) (fun _ => Except.ok [ayatKursiVerse])
    "AK" ayatulKursiRanges "2026-10-12"
    { folders := ["Quran/Collections"],
      files := [("Quran/Collections/AK.md", "old")] }
    (by decide) (by decide)
